import Mathlib

/-!
A shallow embedding of pymongo `_cbsonmodule.c`.

The C extension module `_cbson` (Python 2) exports two functions:

* `_shuffle_oid`     : reorder the bytes of a 12-byte ObjectId;
* `_element_to_bson` : encode one (name, value) pair as a BSON element.

The embedding follows the C text statement by statement.  The platform is the
one the source assumes (little-endian, 4-byte `int`) with a 64-bit `size_t`.
C objects are modelled as follows.

* a byte is a `Nat`; a readable C buffer is the list of its bytes, a read past
  its end is undefined behaviour;
* a `malloc`ed buffer is a list of cells, `none` for a byte never written;
* `int` is an `Int` wrapped into the 32-bit two's complement range, `size_t` a
  `Nat` below `2^64`;
* the interpreter's error indicator is threaded explicitly;
* whether an allocation succeeds is decided by the environment `Env`.
-/

namespace CBson

/-! ## Machine integers -/

/-- Largest value of a C int on the assumed platform. -/
def INT_MAX : Int := 2147483647

/-- Largest value of Python's Py_ssize_t on the assumed 64-bit platform. -/
def PY_SSIZE_T_MAX : Nat := 9223372036854775807

/-- Conversion of a mathematical integer to a 32-bit signed int, wrapping modulo 2^32. -/
def toInt32 (z : Int) : Int := (z + 2147483648) % 4294967296 - 2147483648

/-- Conversion of a (possibly negative) int to the unsigned 64-bit size_t. -/
def toSizeT (z : Int) : Nat := (z % 18446744073709551616).toNat

/-- The four bytes of the object representation of a 32-bit int on a
little-endian host, lowest address first. -/
def int32_bytes (z : Int) : List Nat :=
  let u : Nat := (z % 4294967296).toNat
  [u % 256, (u / 256) % 256, (u / 65536) % 256, (u / 16777216) % 256]

/-! ## Python objects and errors -/

/-- Exception classes that can be raised by the module or by the interpreter
calls it makes.  The constructor CBSONError is the module's own exception object,
created in init_cbson under the name _cbson.error. -/
inductive PyExc where
  | ValueError
  | MemoryError
  | TypeError
  | OverflowError
  | SystemError
  | UnicodeEncodeError
  | CBSONError
  deriving DecidableEq, Repr

/-- A raised exception: its class and its message. -/
structure PyErr where
  exc : PyExc
  message : String
  deriving DecidableEq, Repr

/-- Python values, as far as the module inspects them.  A unicode object carries
the name of its class when that class is a proper subclass of unicode. -/
inductive PyObject where
  | str (bytes : List Nat)
  | unicode (subclass : Option String) (chars : List Char)
  | int (v : Int)
  | other (tp_name : String)
  deriving DecidableEq, Repr

/-- What a call of one of the module functions does: it returns a result to
the interpreter (none for NULL) and leaves the error indicator in some state, or
its behaviour is undefined in C (an access outside a buffer). -/
inductive Outcome where
  | returned (result : Option PyObject) (err : Option PyErr)
  | undefined
  deriving DecidableEq, Repr

/-- Result of an internal C helper that returns a pointer: the buffer, NULL with
an exception set, or undefined behaviour. -/
inductive CRes (α : Type) where
  | value (a : α)
  | raised (e : PyErr)
  | undefined
  deriving DecidableEq, Repr

/-- The environment of a call: which allocations succeed, and whether the
interpreter's UTF-8 conversion of a given text reports a failure. -/
structure Env where
  malloc_ok : Nat → Bool
  newString_ok : Nat → Bool
  utf8_failure : List Char → Option PyErr

/-- An environment in which nothing fails. -/
def Env.unlimited : Env :=
  { malloc_ok := fun _ => true, newString_ok := fun _ => true, utf8_failure := fun _ => none }

/-! ## C buffers -/

/-- A buffer obtained from malloc: one cell per byte, none while unwritten. -/
abbrev Buffer := List (Option Nat)

/-- The call malloc(size): NULL (none) or a fresh buffer of size unwritten bytes. -/
def malloc (env : Env) (size : Nat) : Option Buffer :=
  if env.malloc_ok size then some (List.replicate size none) else none

/-- The assignment buf[i] = b; none when i is outside the buffer. -/
def store (buf : Buffer) (i : Nat) (b : Nat) : Option Buffer :=
  if i < buf.length then some (buf.set i (some b)) else none

/-- The call memcpy(dst + off, src, n); none when it would read past src or
write past dst. -/
def memcpy (dst : Buffer) (off : Nat) (src : List Nat) (n : Nat) : Option Buffer :=
  if off + n ≤ dst.length ∧ n ≤ src.length then
    some (dst.take off ++ (src.take n).map some ++ dst.drop (off + n))
  else none

/-- Read a run of cells as bytes; none when one of them was never written. -/
def readCells : Buffer → Option (List Nat)
  | [] => some []
  | none :: _ => none
  | some b :: rest =>
    match readCells rest with
    | some bs => some (b :: bs)
    | none => none

/-- The call strlen(p) on a readable buffer: index of the first zero byte; none
when the scan runs off the end of the buffer. -/
def strlen : List Nat → Option Nat
  | [] => none
  | b :: rest =>
    if b = 0 then some 0
    else
      match strlen rest with
      | some n => some (n + 1)
      | none => none

/-! ## Interpreter calls used by the module -/

/-- The character buffer of a Python str object: its bytes followed by the
zero byte the interpreter always stores after them. -/
def PyString_AsString (bytes : List Nat) : List Nat := bytes ++ [0]

/-- UTF-8 encoding of one code point. -/
def utf8EncodeChar (c : Nat) : List Nat :=
  if c < 128 then [c]
  else if c < 2048 then [192 + c / 64, 128 + c % 64]
  else if c < 65536 then [224 + c / 4096, 128 + (c / 64) % 64, 128 + c % 64]
  else [240 + c / 262144, 128 + (c / 4096) % 64, 128 + (c / 64) % 64, 128 + c % 64]

/-- UTF-8 encoding of a text. -/
def utf8 : List Char → List Nat
  | [] => []
  | c :: cs => utf8EncodeChar c.toNat ++ utf8 cs

/-- The macro PyUnicode_Check: true for a unicode object and for an instance of
any subclass of unicode. -/
def PyUnicode_Check : PyObject → Bool
  | .unicode _ _ => true
  | _ => false

/-- The macro PyUnicode_CheckExact: true only when the object's class is
unicode itself.  The module never calls it. -/
def PyUnicode_CheckExact : PyObject → Bool
  | .unicode none _ => true
  | _ => false

/-- The field value->ob_type->tp_name. -/
def tp_name : PyObject → String
  | .str _ => "str"
  | .unicode none _ => "unicode"
  | .unicode (some cls) _ => cls
  | .int _ => "int"
  | .other n => n

/-- The call PyUnicode_AsUTF8String: a new str object holding the UTF-8
encoding, or NULL with an exception set. -/
def PyUnicode_AsUTF8String (env : Env) : PyObject → Except PyErr (List Nat)
  | .unicode _ chars =>
    match env.utf8_failure chars with
    | some e => .error e
    | none =>
      if (utf8 chars).length ≤ PY_SSIZE_T_MAX then .ok (utf8 chars)
      else .error ⟨.MemoryError, ""⟩
  | _ => .error ⟨.TypeError, "bad argument type for built-in operation"⟩

/-- Conversion of one argument by the format unit s#: a str object gives its
bytes, a unicode object its encoding in the default (ASCII) codec; the length
must fit a C int. -/
def convert_s_hash : PyObject → Except PyErr (List Nat × Int)
  | .str bytes =>
    if (bytes.length : Int) ≤ INT_MAX then .ok (bytes, (bytes.length : Int))
    else .error ⟨.OverflowError, "size does not fit in an int"⟩
  | .unicode _ chars =>
    if chars.all (fun c => c.toNat < 128) then
      if (chars.length : Int) ≤ INT_MAX then
        .ok (chars.map Char.toNat, (chars.length : Int))
      else .error ⟨.OverflowError, "size does not fit in an int"⟩
    else .error ⟨.UnicodeEncodeError, "ordinal not in range(128)"⟩
  | _ => .error ⟨.TypeError, "must be string or read-only buffer"⟩

/-- The call PyArg_ParseTuple(args, "s#", &data, &length). -/
def PyArg_ParseTuple_s_hash (args : List PyObject) : Except PyErr (List Nat × Int) :=
  match args with
  | [a] => convert_s_hash a
  | _ => .error ⟨.TypeError, "function takes exactly 1 argument"⟩

/-- The call PyArg_ParseTuple(args, "s#O", &name, &name_length, &value). -/
def PyArg_ParseTuple_s_hash_O (args : List PyObject) :
    Except PyErr (List Nat × Int × PyObject) :=
  match args with
  | [a, value] =>
    match convert_s_hash a with
    | .ok (name, name_length) => .ok (name, name_length, value)
    | .error e => .error e
  | _ => .error ⟨.TypeError, "function takes exactly 2 arguments"⟩

/-- The call Py_BuildValue("s#", p, n) with n a C int: a new str object made of
the first n bytes at p.  The error indicator err in force before the call is
left as it is unless the call itself fails. -/
def Py_BuildValue_s_hash (env : Env) (err : Option PyErr) (p : Buffer) (n : Int) : Outcome :=
  if n < 0 then
    .returned none (some ⟨.SystemError, "Negative size passed to PyString_FromStringAndSize"⟩)
  else if env.newString_ok n.toNat then
    if n.toNat ≤ p.length then
      match readCells (p.take n.toNat) with
      | some bytes => .returned (some (.str bytes)) err
      | none => .undefined
    else .undefined
  else .returned none (some ⟨.MemoryError, ""⟩)

/-! ## The module -/

/-- The exception set by PyErr_NoMemory. -/
def PyErr_NoMemory : PyErr := ⟨.MemoryError, ""⟩

/-- The first loop of shuffle_oid: for i = 0 .. 7, shuffled[i] = oid[7 - i]. -/
def shuffle_loop1 (oid : List Nat) (shuffled : Buffer) : Option Buffer :=
  (List.range 8).foldl
    (fun acc i =>
      match acc with
      | none => none
      | some s =>
        match oid[7 - i]? with
        | none => none
        | some b => store s i b)
    (some shuffled)

/-- The second loop of shuffle_oid: for i = 0 .. 3, shuffled[i + 8] = oid[11 - i]. -/
def shuffle_loop2 (oid : List Nat) (shuffled : Buffer) : Option Buffer :=
  (List.range 4).foldl
    (fun acc i =>
      match acc with
      | none => none
      | some s =>
        match oid[11 - i]? with
        | none => none
        | some b => store s (i + 8) b)
    (some shuffled)

/-- The C function shuffle_oid; oid is the readable buffer behind the pointer. -/
def shuffle_oid (env : Env) (oid : List Nat) : CRes Buffer :=
  match malloc env 12 with
  | none => .raised PyErr_NoMemory
  | some shuffled =>
    match shuffle_loop1 oid shuffled with
    | none => .undefined
    | some s1 =>
      match shuffle_loop2 oid s1 with
      | none => .undefined
      | some s2 => .value s2

/-- The C function _cbson_shuffle_oid, exported as _shuffle_oid.  The branch
for length != 12 sets the error indicator and falls through. -/
def _cbson_shuffle_oid (env : Env) (args : List PyObject) : Outcome :=
  match PyArg_ParseTuple_s_hash args with
  | .error e => .returned none (some e)
  | .ok (data, length) =>
    let err : Option PyErr :=
      if length ≠ 12 then some ⟨.ValueError, "oid must be of length 12"⟩ else none
    match shuffle_oid env (PyString_AsString data) with
    | .raised e => .returned none (some e)
    | .undefined => .undefined
    | .value shuffled => Py_BuildValue_s_hash env err shuffled 12

/-- The value of the int variable bytes_length, from the result of strlen. -/
def bytes_length_of (len : Nat) : Int := toInt32 ((len : Int) + 1)

/-- The value of the int variable return_value_length. -/
def return_value_length_of (name_length bytes_length : Int) : Int :=
  toInt32 (5 + name_length + bytes_length)

/-- The four writes into the allocated buffer to_return: the tag byte, the
name, the object representation of the int bytes_length, and bytes_length bytes
of the encoded text; none when one of them leaves a buffer. -/
def write_element (to_return : Buffer) (name : List Nat) (name_length : Int)
    (encoded_bytes : List Nat) (bytes_length : Int) : Option Buffer :=
  (store to_return 0 2).bind fun b1 =>
  (memcpy b1 1 name (toSizeT name_length)).bind fun b2 =>
  (memcpy b2 (1 + toSizeT name_length) (int32_bytes bytes_length) 4).bind fun b3 =>
  memcpy b3 (5 + toSizeT name_length) encoded_bytes (toSizeT bytes_length)

/-- The text branch of _cbson_element_to_bson after the conversion to UTF-8
succeeded: encoded is the content of the new str object, so PyString_AsString
does not return NULL. -/
def encode_text (env : Env) (name : List Nat) (name_length : Int) (encoded : List Nat) :
    Outcome :=
  let encoded_bytes := PyString_AsString encoded
  match strlen encoded_bytes with
  | none => .undefined
  | some len =>
    let bytes_length := bytes_length_of len
    let return_value_length := return_value_length_of name_length bytes_length
    match malloc env (toSizeT return_value_length) with
    | none => .returned none (some PyErr_NoMemory)
    | some to_return =>
      match write_element to_return (PyString_AsString name) name_length encoded_bytes
          bytes_length with
      | none => .undefined
      | some buf => Py_BuildValue_s_hash env none buf return_value_length

/-- The C function _cbson_element_to_bson, exported as _element_to_bson.  The
local variable type receives value->ob_type->tp_name and is never read. -/
def _cbson_element_to_bson (env : Env) (args : List PyObject) : Outcome :=
  match PyArg_ParseTuple_s_hash_O args with
  | .error e => .returned none (some e)
  | .ok (name, name_length, value) =>
    let _type := tp_name value
    if PyUnicode_Check value then
      match PyUnicode_AsUTF8String env value with
      | .error e => .returned none (some e)
      | .ok encoded => encode_text env name name_length encoded
    else .returned none (some ⟨.CBSONError, "no c encoder for this type yet"⟩)

/-! ## Reading an element back -/

/-- Index of the first zero byte of a byte sequence, its length when it has none. -/
def nulIndex : List Nat → Nat
  | [] => 0
  | b :: rest => if b = 0 then 0 else nulIndex rest + 1

/-- The unsigned 32-bit integer stored little-endian in the four bytes of l
that start at offset off. -/
def read_le32 (l : List Nat) (off : Nat) : Nat :=
  l.getD off 0 + 256 * l.getD (off + 1) 0 + 65536 * l.getD (off + 2) 0
    + 16777216 * l.getD (off + 3) 0

/-- Put a decoded character in front of the decoded rest. -/
def consChar (c : Nat) : Option (List Char) → Option (List Char)
  | some cs => some (Char.ofNat c :: cs)
  | none => none

/-- Modelled from the spec: the UTF-8 decoding step of the reader of a BSON
string element, which is not part of the source.  Decoding is strict: none on
a truncated, overlong or out-of-range sequence and on an encoded surrogate. -/
def utf8Decode : List Nat → Option (List Char)
  | [] => some []
  | b0 :: rest =>
    if b0 < 128 then consChar b0 (utf8Decode rest)
    else
      match rest with
      | [] => none
      | b1 :: rest1 =>
        if 192 ≤ b0 ∧ b0 < 224 then
          let c := (b0 - 192) * 64 + (b1 - 128)
          if 128 ≤ b1 ∧ b1 < 192 ∧ 128 ≤ c then consChar c (utf8Decode rest1) else none
        else
          match rest1 with
          | [] => none
          | b2 :: rest2 =>
            if 224 ≤ b0 ∧ b0 < 240 then
              let c := (b0 - 224) * 4096 + (b1 - 128) * 64 + (b2 - 128)
              if 128 ≤ b1 ∧ b1 < 192 ∧ 128 ≤ b2 ∧ b2 < 192 ∧ 2048 ≤ c
                  ∧ ¬ (55296 ≤ c ∧ c < 57344) then
                consChar c (utf8Decode rest2)
              else none
            else
              match rest2 with
              | [] => none
              | b3 :: rest3 =>
                if 240 ≤ b0 ∧ b0 < 248 then
                  let c := (b0 - 240) * 262144 + (b1 - 128) * 4096 + (b2 - 128) * 64
                    + (b3 - 128)
                  if 128 ≤ b1 ∧ b1 < 192 ∧ 128 ≤ b2 ∧ b2 < 192 ∧ 128 ≤ b3 ∧ b3 < 192
                      ∧ 65536 ≤ c ∧ c < 1114112 then
                    consChar c (utf8Decode rest3)
                  else none
                else none

/-- Modelled from the spec: the reader of a BSON string element, which is not
part of the source.  It reads the tag 0x02, the name up to its terminating zero
byte, the 4-byte little-endian length L, then L - 1 payload bytes as UTF-8 and
a final zero byte; it accepts only when that zero byte ends the input, and
returns the name and the text. -/
def decode_string_element (bytes : List Nat) : Option (List Nat × List Char) :=
  match bytes with
  | [] => none
  | tag :: rest =>
    if tag = 2 ∧ nulIndex rest < rest.length then
      let name := rest.take (nulIndex rest)
      let after := rest.drop (nulIndex rest + 1)
      let L := read_le32 after 0
      let body := after.drop 4
      if 4 ≤ after.length ∧ 1 ≤ L ∧ body.length = L ∧ body.getD (L - 1) 1 = 0 then
        match utf8Decode (body.take (L - 1)) with
        | some v => some (name, v)
        | none => none
      else none
    else none

/-! ## Auxiliary facts about buffers -/

theorem readCells_map_some (l : List Nat) : readCells (l.map some) = some l := by
  induction l with
  | nil => rfl
  | cons b rest ih => simp [readCells, ih]

theorem strlen_append_zero (u : List Nat) : strlen (u ++ [0]) = some (nulIndex u) := by
  induction u with
  | nil => simp [strlen, nulIndex]
  | cons b rest ih =>
    by_cases hb : b = 0
    · simp [strlen, nulIndex, hb]
    · simp [strlen, nulIndex, hb, ih]

theorem nulIndex_le_length (u : List Nat) : nulIndex u ≤ u.length := by
  induction u with
  | nil => simp [nulIndex]
  | cons b rest ih =>
    by_cases hb : b = 0
    · simp [nulIndex, hb]
    · simp [nulIndex, hb, ih]

theorem nulIndex_eq_length (u : List Nat) (h : 0 ∉ u) : nulIndex u = u.length := by
  induction u with
  | nil => simp [nulIndex]
  | cons b rest ih =>
    have hb : b ≠ 0 := fun hb => h (by simp [hb])
    have hr : 0 ∉ rest := fun hr => h (by simp [hr])
    simp [nulIndex, hb, ih hr]

theorem nulIndex_lt_of_mem (u : List Nat) (h : 0 ∈ u) : nulIndex u < u.length := by
  induction u with
  | nil => simp at h
  | cons b rest ih =>
    by_cases hb : b = 0
    · simp [nulIndex, hb]
    · have hr : 0 ∈ rest := by
        rcases List.mem_cons.mp h with h0 | h0
        · exact absurd h0.symm hb
        · exact h0
      simp [nulIndex, hb, ih hr]

theorem take_nulIndex_no_zero (u : List Nat) : 0 ∉ u.take (nulIndex u) := by
  induction u with
  | nil => simp [nulIndex]
  | cons b rest ih =>
    by_cases hb : b = 0
    · simp [nulIndex, hb]
    · simp [nulIndex, hb, List.take_succ_cons]
      exact ⟨fun h => hb h.symm, ih⟩

/-- Up to and including the first zero byte, the buffer of a str object is
its content up to the first zero byte followed by one zero byte. -/
theorem take_succ_nulIndex (u : List Nat) :
    (u ++ [0]).take (nulIndex u + 1) = u.take (nulIndex u) ++ [0] := by
  induction u with
  | nil => simp [nulIndex]
  | cons b rest ih =>
    by_cases hb : b = 0
    · simp [nulIndex, hb]
    · simp [nulIndex, hb, List.take_succ_cons, ih]

/-- Building the result str from a fully written buffer. -/
theorem buildValue_written (env : Env) (err : Option PyErr) (l : List Nat) (n : Int)
    (hn : n = (l.length : Int)) (hs : env.newString_ok l.length = true) :
    Py_BuildValue_s_hash env err (l.map some) n = .returned (some (.str l)) err := by
  subst hn
  unfold Py_BuildValue_s_hash
  have h1 : ¬ ((l.length : Int) < 0) := by omega
  have h2 : ((l.length : Int)).toNat = l.length := by simp
  simp only [h1, h2, hs, if_true, if_false, List.length_map, le_refl]
  rw [← List.length_map l some, List.take_length, readCells_map_some]

theorem toInt32_of_range (z : Int) (h0 : -2147483648 ≤ z) (h1 : z ≤ INT_MAX) : toInt32 z = z := by
  unfold toInt32
  unfold INT_MAX at h1
  omega

theorem toSizeT_of_nonneg (z : Int) (h0 : 0 ≤ z) (h1 : z ≤ INT_MAX) : toSizeT z = z.toNat := by
  unfold toSizeT
  unfold INT_MAX at h1
  rw [Int.emod_eq_of_lt h0 (by omega)]

theorem length_int32_bytes (z : Int) : (int32_bytes z).length = 4 := rfl

theorem store_fresh (k b : Nat) :
    store (List.replicate (k + 1) none) 0 b = some ([b].map some ++ List.replicate k none) := by
  simp [store, List.replicate_succ]

theorem memcpy_append (w : List Nat) (k off : Nat) (src : List Nat) (n : Nat)
    (hoff : off = w.length) (hk : n ≤ k) (hsrc : n ≤ src.length) :
    memcpy (w.map some ++ List.replicate k none) off src n
      = some ((w ++ src.take n).map some ++ List.replicate (k - n) none) := by
  subst hoff
  unfold memcpy
  have hc : w.length + n ≤ (w.map some ++ List.replicate k (none : Option Nat)).length
      ∧ n ≤ src.length := by
    simp [hk, hsrc]
  rw [if_pos hc]
  have ht : (w.map some ++ List.replicate k (none : Option Nat)).take w.length = w.map some := by
    rw [List.take_append_of_le_length (by simp)]
    rw [List.take_of_length_le (by simp)]
  have hd : (w.map some ++ List.replicate k (none : Option Nat)).drop (w.length + n)
      = List.replicate (k - n) none := by
    rw [List.drop_append_eq_append_drop]
    simp
  rw [ht, hd]
  simp


theorem store_some (buf r : Buffer) (i b : Nat) (h : store buf i b = some r) :
    i < buf.length ∧ r.length = buf.length := by
  unfold store at h
  by_cases hi : i < buf.length
  · rw [if_pos hi] at h
    simp only [Option.some.injEq] at h
    subst h
    exact ⟨hi, by simp⟩
  · rw [if_neg hi] at h
    cases h

theorem memcpy_some (dst r : Buffer) (off n : Nat) (src : List Nat)
    (h : memcpy dst off src n = some r) :
    off + n ≤ dst.length ∧ n ≤ src.length ∧ r.length = dst.length := by
  unfold memcpy at h
  by_cases hc : off + n ≤ dst.length ∧ n ≤ src.length
  · rw [if_pos hc] at h
    simp only [Option.some.injEq] at h
    subst h
    refine ⟨hc.1, hc.2, ?_⟩
    simp [List.length_take, List.length_drop]
    omega
  · rw [if_neg hc] at h
    cases h

theorem malloc_some (env : Env) (size : Nat) (buf : Buffer) (h : malloc env size = some buf) :
    env.malloc_ok size = true ∧ buf = List.replicate size none := by
  unfold malloc at h
  by_cases hm : env.malloc_ok size = true
  · rw [if_pos hm] at h
    simp only [Option.some.injEq] at h
    exact ⟨hm, h.symm⟩
  · rw [if_neg hm] at h
    cases h

theorem buildValue_some (env : Env) (err err2 : Option PyErr) (p : Buffer) (n : Int)
    (res : PyObject)
    (h : Py_BuildValue_s_hash env err p n = .returned (some res) err2) :
    0 ≤ n ∧ env.newString_ok n.toNat = true := by
  unfold Py_BuildValue_s_hash at h
  by_cases hn : n < 0
  · rw [if_pos hn] at h
    cases h
  · rw [if_neg hn] at h
    by_cases hs : env.newString_ok n.toNat = true
    · exact ⟨by omega, hs⟩
    · rw [if_neg hs] at h
      cases h

/-- The four writes on a fresh buffer of exactly the needed size. -/
theorem write_element_fresh (name enc_bytes : List Nat) (n : Nat)
    (hnl : toSizeT (name.length : Int) = name.length) (hbs : toSizeT (n : Int) = n)
    (hsrc : n ≤ enc_bytes.length) :
    write_element (List.replicate (5 + name.length + n) none) (name ++ [0])
        (name.length : Int) enc_bytes (n : Int)
      = some (([2] ++ name ++ int32_bytes (n : Int) ++ enc_bytes.take n).map some) := by
  unfold write_element
  rw [hnl, hbs]
  have e1 : 5 + name.length + n = (4 + name.length + n) + 1 := by omega
  rw [e1, store_fresh, Option.some_bind]
  rw [memcpy_append [2] (4 + name.length + n) 1 (name ++ [0]) name.length rfl (by omega)
    (by simp), Option.some_bind]
  rw [memcpy_append _ (4 + name.length + n - name.length) (1 + name.length)
    (int32_bytes (n : Int)) 4 (by simp; omega) (by omega) (by simp [length_int32_bytes]),
    Option.some_bind]
  rw [memcpy_append _ (4 + name.length + n - name.length - 4) (5 + name.length) enc_bytes
    n (by simp [length_int32_bytes]; omega) (by omega) hsrc]
  have e2 : 4 + name.length + n - name.length - 4 - n = 0 := by omega
  rw [e2, List.replicate_zero, List.append_nil]
  rw [List.take_left, List.take_of_length_le (by simp [length_int32_bytes])]

/-- When the four writes succeed, every one of them stayed inside its buffers. -/
theorem write_element_some (to_return buf : Buffer) (name enc_bytes : List Nat)
    (name_length bytes_length : Int)
    (h : write_element to_return name name_length enc_bytes bytes_length = some buf) :
    5 + toSizeT name_length + toSizeT bytes_length ≤ to_return.length ∧
    toSizeT bytes_length ≤ enc_bytes.length := by
  unfold write_element at h
  rw [Option.bind_eq_some] at h
  obtain ⟨b1, h1, h⟩ := h
  rw [Option.bind_eq_some] at h
  obtain ⟨b2, h2, h⟩ := h
  rw [Option.bind_eq_some] at h
  obtain ⟨b3, h3, h4⟩ := h
  obtain ⟨_, hl1⟩ := store_some _ _ _ _ h1
  obtain ⟨_, _, hl2⟩ := memcpy_some _ _ _ _ _ h2
  obtain ⟨_, _, hl3⟩ := memcpy_some _ _ _ _ _ h3
  obtain ⟨hw, hr, _⟩ := memcpy_some _ _ _ _ _ h4
  rw [hl3, hl2, hl1] at hw
  exact ⟨hw, hr⟩

/-- The text branch with the result of strlen made explicit. -/
theorem encode_text_eq (env : Env) (name enc : List Nat) (name_length : Int) :
    encode_text env name name_length enc
      = match malloc env (toSizeT (return_value_length_of name_length
            (bytes_length_of (nulIndex enc)))) with
        | none => .returned none (some PyErr_NoMemory)
        | some to_return =>
          match write_element to_return (name ++ [0]) name_length (enc ++ [0])
              (bytes_length_of (nulIndex enc)) with
          | none => .undefined
          | some buf =>
            Py_BuildValue_s_hash env none buf
              (return_value_length_of name_length (bytes_length_of (nulIndex enc))) := by
  simp only [encode_text, PyString_AsString, strlen_append_zero]

/-- The text branch returns the element whenever the int bytes_length is not
negative, does not exceed the size of the encoded buffer, the sum
5 + name_length + bytes_length fits an int, and the two allocations succeed. -/
theorem encode_text_returns (env : Env) (name enc : List Nat) (bl : Int)
    (hbl : bytes_length_of (nulIndex enc) = bl)
    (h0 : 0 ≤ bl) (hsrc : bl ≤ (enc.length : Int) + 1)
    (hsum : 5 + (name.length : Int) + bl ≤ INT_MAX)
    (hm : env.malloc_ok (5 + name.length + bl.toNat) = true)
    (hs : env.newString_ok (5 + name.length + bl.toNat) = true) :
    encode_text env name (name.length : Int) enc
      = .returned
          (some (.str ([2] ++ name ++ int32_bytes bl ++ (enc ++ [0]).take bl.toNat))) none := by
  obtain ⟨n, rfl⟩ := Int.eq_ofNat_of_zero_le h0
  have hnl : toSizeT (name.length : Int) = name.length := by
    rw [toSizeT_of_nonneg _ (by omega) (by omega)]; simp
  have hbs : toSizeT (n : Int) = n := by
    rw [toSizeT_of_nonneg _ (by omega) (by omega)]; simp
  have hrv : return_value_length_of (name.length : Int) (n : Int)
      = ((5 + name.length + n : Nat) : Int) := by
    unfold return_value_length_of
    rw [toInt32_of_range _ (by omega) hsum]
    push_cast; ring
  have hrs : toSizeT ((5 + name.length + n : Nat) : Int) = 5 + name.length + n := by
    rw [toSizeT_of_nonneg _ (by omega) (by push_cast; omega)]; omega
  have hsrc2 : n ≤ (enc ++ [0]).length := by simp; omega
  simp only [Int.toNat_ofNat] at hm hs ⊢
  have hlen : ([2] ++ name ++ int32_bytes (n : Int) ++ (enc ++ [0]).take n).length
      = 5 + name.length + n := by
    simp [length_int32_bytes, List.length_take, hsrc2]; omega
  rw [encode_text_eq, hbl, hrv, hrs]
  unfold malloc
  rw [if_pos hm]
  simp only []
  rw [write_element_fresh name (enc ++ [0]) n hnl hbs hsrc2]
  simp only []
  apply buildValue_written
  · rw [hlen]
  · rw [hlen]; exact hs

theorem toInt32_bounds (z : Int) : -2147483648 ≤ toInt32 z ∧ toInt32 z ≤ INT_MAX := by
  unfold toInt32 INT_MAX
  omega

theorem toSizeT_of_neg (z : Int) (h0 : z < 0) (h1 : -2147483648 ≤ z) :
    toSizeT z = (z + 18446744073709551616).toNat := by
  unfold toSizeT
  have h : z % 18446744073709551616 = z + 18446744073709551616 := by omega
  rw [h]

/-- The arithmetic behind a successful run of the text branch: when the
payload copy stays inside the encoded buffer and inside the allocation, and
the result length is not negative, nothing wrapped. -/
theorem sizes_exact_of_writes (nl bl : Int) (encLen : Nat)
    (hnl0 : 0 ≤ nl) (hnl : nl ≤ INT_MAX)
    (hbl : -2147483648 ≤ bl ∧ bl ≤ INT_MAX)
    (hn : 0 ≤ toInt32 (5 + nl + bl))
    (hw : 5 + toSizeT nl + toSizeT bl ≤ toSizeT (toInt32 (5 + nl + bl)))
    (hr : toSizeT bl ≤ encLen + 1) (henc : encLen ≤ PY_SSIZE_T_MAX) :
    0 ≤ bl ∧ bl ≤ (encLen : Int) + 1 ∧ 5 + nl + bl ≤ INT_MAX ∧
      toInt32 (5 + nl + bl) = 5 + nl + bl := by
  have hrb := toInt32_bounds (5 + nl + bl)
  have hbl0 : 0 ≤ bl := by
    by_contra hneg
    have hlt : bl < 0 := by omega
    rw [toSizeT_of_neg bl hlt hbl.1] at hr
    unfold PY_SSIZE_T_MAX at henc
    clear hw hn hrb hnl hnl0
    omega
  rw [toSizeT_of_nonneg nl hnl0 hnl, toSizeT_of_nonneg bl hbl0 hbl.2,
    toSizeT_of_nonneg _ hn hrb.2] at hw
  rw [toSizeT_of_nonneg bl hbl0 hbl.2] at hr
  have hsum : 5 + nl + bl ≤ INT_MAX := by
    have hle := hrb.2
    clear hr henc hrb
    omega
  exact ⟨hbl0, by clear hw hrb hn hsum; omega, hsum, toInt32_of_range _ (by omega) hsum⟩

theorem sizes_of_sum (n : Nat) (bl : Int) (h0 : 0 ≤ bl)
    (hsum : 5 + (n : Int) + bl ≤ INT_MAX) :
    toSizeT (5 + (n : Int) + bl) = 5 + n + bl.toNat ∧
      (5 + (n : Int) + bl).toNat = 5 + n + bl.toNat := by
  rw [toSizeT_of_nonneg _ (by omega) hsum]
  omega

/-- Whenever the text branch returns an object, the int bytes_length was not
negative, the copy of the payload stayed inside the encoded buffer, the sum
5 + name_length + bytes_length did not wrap, and both allocations succeeded. -/
theorem encode_text_some (env : Env) (name enc : List Nat) (res : PyObject)
    (err : Option PyErr)
    (hname : (name.length : Int) ≤ INT_MAX) (henc : enc.length ≤ PY_SSIZE_T_MAX)
    (h : encode_text env name (name.length : Int) enc = .returned (some res) err) :
    0 ≤ bytes_length_of (nulIndex enc) ∧
    bytes_length_of (nulIndex enc) ≤ (enc.length : Int) + 1 ∧
    5 + (name.length : Int) + bytes_length_of (nulIndex enc) ≤ INT_MAX ∧
    env.malloc_ok (5 + name.length + (bytes_length_of (nulIndex enc)).toNat) = true ∧
    env.newString_ok (5 + name.length + (bytes_length_of (nulIndex enc)).toNat) = true := by
  rw [encode_text_eq] at h
  have hblr : -2147483648 ≤ bytes_length_of (nulIndex enc)
      ∧ bytes_length_of (nulIndex enc) ≤ INT_MAX := toInt32_bounds _
  generalize bytes_length_of (nulIndex enc) = bl at h hblr ⊢
  unfold return_value_length_of at h
  cases hmal : malloc env (toSizeT (toInt32 (5 + (name.length : Int) + bl))) with
  | none => rw [hmal] at h; cases h
  | some to_return =>
    rw [hmal] at h
    dsimp only at h
    obtain ⟨hm, hbuf⟩ := malloc_some _ _ _ hmal
    cases hwr : write_element to_return (name ++ [0]) (name.length : Int) (enc ++ [0]) bl with
    | none => rw [hwr] at h; cases h
    | some buf =>
      rw [hwr] at h
      dsimp only at h
      obtain ⟨hw, hr⟩ := write_element_some _ _ _ _ _ _ hwr
      obtain ⟨hn, hs⟩ := buildValue_some _ _ _ _ _ _ h
      rw [hbuf, List.length_replicate] at hw
      simp only [List.length_append, List.length_singleton] at hr
      obtain ⟨hbl0, hsrc, hsum, hrveq⟩ :=
        sizes_exact_of_writes (name.length : Int) bl enc.length (Int.natCast_nonneg _) hname hblr
          hn hw hr henc
      rw [hrveq] at hm hs
      obtain ⟨hsz, hsz2⟩ := sizes_of_sum name.length bl hbl0 hsum
      rw [hsz] at hm
      rw [hsz2] at hs
      exact ⟨hbl0, hsrc, hsum, hm, hs⟩

/-! ## The identifier reorderer -/

/-- The inner function shuffle_oid on the buffer of a 12-byte str. -/
theorem shuffle_oid_buffer (env : Env) (b0 b1 b2 b3 b4 b5 b6 b7 b8 b9 b10 b11 : Nat)
    (hm : env.malloc_ok 12 = true) :
    shuffle_oid env (PyString_AsString [b0, b1, b2, b3, b4, b5, b6, b7, b8, b9, b10, b11])
      = .value ([b7, b6, b5, b4, b3, b2, b1, b0, b11, b10, b9, b8].map some) := by
  unfold shuffle_oid malloc
  rw [hm]
  rfl

/-- Argument parsing of a single 12-byte str. -/
theorem parse_twelve (b : List Nat) (h : b.length = 12) :
    PyArg_ParseTuple_s_hash [.str b] = .ok (b, 12) := by
  simp [PyArg_ParseTuple_s_hash, convert_s_hash, h, INT_MAX]

/-- The exported function on a 12-byte str, from the result of the inner one. -/
theorem shuffle_oid_of_buffer (env : Env) (b out : List Nat) (hb : b.length = 12)
    (hout : out.length = 12)
    (hinner : shuffle_oid env (PyString_AsString b) = .value (out.map some))
    (hs : env.newString_ok 12 = true) :
    _cbson_shuffle_oid env [.str b] = .returned (some (.str out)) none := by
  have hbv := buildValue_written env none out 12 (by rw [hout]; rfl) (by rw [hout]; exact hs)
  simp only [_cbson_shuffle_oid, parse_twelve b hb, hinner, ne_eq, not_true, if_false]
  exact hbv

/-- On a 12-byte str argument, when both allocations succeed, the reorderer
returns the first eight bytes reversed followed by the last four reversed. -/
theorem shuffle_oid_twelve (env : Env) (b0 b1 b2 b3 b4 b5 b6 b7 b8 b9 b10 b11 : Nat)
    (hm : env.malloc_ok 12 = true) (hs : env.newString_ok 12 = true) :
    _cbson_shuffle_oid env [.str [b0, b1, b2, b3, b4, b5, b6, b7, b8, b9, b10, b11]]
      = .returned (some (.str [b7, b6, b5, b4, b3, b2, b1, b0, b11, b10, b9, b8])) none :=
  shuffle_oid_of_buffer env _ _ rfl rfl
    (shuffle_oid_buffer env b0 b1 b2 b3 b4 b5 b6 b7 b8 b9 b10 b11 hm) hs

/-- Every list of length 12 is a list of twelve explicit elements. -/
theorem length_twelve (b : List Nat) (h : b.length = 12) :
    ∃ b0 b1 b2 b3 b4 b5 b6 b7 b8 b9 b10 b11,
      b = [b0, b1, b2, b3, b4, b5, b6, b7, b8, b9, b10, b11] := by
  match b, h with
  | [b0, b1, b2, b3, b4, b5, b6, b7, b8, b9, b10, b11], _ =>
    exact ⟨b0, b1, b2, b3, b4, b5, b6, b7, b8, b9, b10, b11, rfl⟩

/-- Claim C1: for every 12-byte input b, when the two allocations of the call
succeed, _shuffle_oid returns a str of exactly 12 bytes out with no error set,
where out[i] = b[7 - i] for i < 8 and out[8 + i] = b[11 - i] for i < 4; in
particular the bytes 0, 1, .., 11 are reordered to 7, 6, .., 0, 11, 10, 9, 8. -/
theorem C1_shuffle_oid_contract (env : Env) (b : List Nat) (hlen : b.length = 12)
    (hm : env.malloc_ok 12 = true) (hs : env.newString_ok 12 = true) :
    (∃ out : List Nat,
      _cbson_shuffle_oid env [.str b] = .returned (some (.str out)) none ∧
      out.length = 12 ∧
      (∀ i, i < 8 → out[i]? = b[7 - i]?) ∧
      (∀ i, i < 4 → out[8 + i]? = b[11 - i]?)) ∧
    _cbson_shuffle_oid env [.str [0, 1, 2, 3, 4, 5, 6, 7, 8, 9, 10, 11]]
      = .returned (some (.str [7, 6, 5, 4, 3, 2, 1, 0, 11, 10, 9, 8])) none := by
  refine ⟨?_, shuffle_oid_twelve env 0 1 2 3 4 5 6 7 8 9 10 11 hm hs⟩
  obtain ⟨b0, b1, b2, b3, b4, b5, b6, b7, b8, b9, b10, b11, rfl⟩ := length_twelve b hlen
  refine ⟨[b7, b6, b5, b4, b3, b2, b1, b0, b11, b10, b9, b8],
    shuffle_oid_twelve env _ _ _ _ _ _ _ _ _ _ _ _ hm hs, rfl, ?_, ?_⟩
  · intro i hi
    interval_cases i <;> rfl
  · intro i hi
    interval_cases i <;> rfl

/-- Witness for claim C1 at the bytes 0 .. 11 in an environment where nothing fails. -/
theorem C1_shuffle_oid_contract_witness :
    ([0, 1, 2, 3, 4, 5, 6, 7, 8, 9, 10, 11] : List Nat).length = 12 ∧
    Env.unlimited.malloc_ok 12 = true ∧ Env.unlimited.newString_ok 12 = true ∧
    (∃ out : List Nat,
      _cbson_shuffle_oid Env.unlimited [.str [0, 1, 2, 3, 4, 5, 6, 7, 8, 9, 10, 11]]
        = .returned (some (.str out)) none ∧
      out.length = 12 ∧
      (∀ i, i < 8 → out[i]? = [0, 1, 2, 3, 4, 5, 6, 7, 8, 9, 10, 11][7 - i]?) ∧
      (∀ i, i < 4 → out[8 + i]? = [0, 1, 2, 3, 4, 5, 6, 7, 8, 9, 10, 11][11 - i]?)) ∧
    _cbson_shuffle_oid Env.unlimited [.str [0, 1, 2, 3, 4, 5, 6, 7, 8, 9, 10, 11]]
      = .returned (some (.str [7, 6, 5, 4, 3, 2, 1, 0, 11, 10, 9, 8])) none :=
  ⟨rfl, rfl, rfl,
    C1_shuffle_oid_contract Env.unlimited [0, 1, 2, 3, 4, 5, 6, 7, 8, 9, 10, 11] rfl rfl rfl⟩

/-- Claim C2, the code at a failing input: on a 13-byte str the ValueError is
set, but the function does not return there: the permutation runs on the first
12 bytes and a 12-byte str is returned with the error still pending; on an
11-byte str the byte read at index 11 is the terminating zero of the str
buffer; on a shorter str the loops read outside the buffer. -/
theorem C2_shuffle_oid_wrong_length_runs :
    _cbson_shuffle_oid Env.unlimited [.str [0, 1, 2, 3, 4, 5, 6, 7, 8, 9, 10, 11, 12]]
      = .returned (some (.str [7, 6, 5, 4, 3, 2, 1, 0, 11, 10, 9, 8]))
          (some ⟨.ValueError, "oid must be of length 12"⟩) ∧
    _cbson_shuffle_oid Env.unlimited [.str [1, 2, 3, 4, 5, 6, 7, 8, 9, 10, 11]]
      = .returned (some (.str [8, 7, 6, 5, 4, 3, 2, 1, 0, 11, 10, 9]))
          (some ⟨.ValueError, "oid must be of length 12"⟩) ∧
    _cbson_shuffle_oid Env.unlimited [.str []] = .undefined := by
  decide

/-- Claim C6: for every 12-byte input b, when the allocations succeed,
_shuffle_oid returns a 12-byte str, and applied to that result it returns the
12-byte str b again. -/
theorem C6_shuffle_oid_involution (env : Env) (b : List Nat) (hlen : b.length = 12)
    (hm : env.malloc_ok 12 = true) (hs : env.newString_ok 12 = true) :
    ∃ out : List Nat,
      _cbson_shuffle_oid env [.str b] = .returned (some (.str out)) none ∧
      out.length = 12 ∧
      _cbson_shuffle_oid env [.str out] = .returned (some (.str b)) none ∧
      b.length = 12 := by
  obtain ⟨b0, b1, b2, b3, b4, b5, b6, b7, b8, b9, b10, b11, rfl⟩ := length_twelve b hlen
  exact ⟨[b7, b6, b5, b4, b3, b2, b1, b0, b11, b10, b9, b8],
    shuffle_oid_twelve env _ _ _ _ _ _ _ _ _ _ _ _ hm hs, rfl,
    shuffle_oid_twelve env _ _ _ _ _ _ _ _ _ _ _ _ hm hs, rfl⟩

/-- Witness for claim C6 at the bytes 10 .. 21 in an environment where nothing fails. -/
theorem C6_shuffle_oid_involution_witness :
    ([10, 11, 12, 13, 14, 15, 16, 17, 18, 19, 20, 21] : List Nat).length = 12 ∧
    Env.unlimited.malloc_ok 12 = true ∧ Env.unlimited.newString_ok 12 = true ∧
    ∃ out : List Nat,
      _cbson_shuffle_oid Env.unlimited [.str [10, 11, 12, 13, 14, 15, 16, 17, 18, 19, 20, 21]]
        = .returned (some (.str out)) none ∧
      out.length = 12 ∧
      _cbson_shuffle_oid Env.unlimited [.str out]
        = .returned (some (.str [10, 11, 12, 13, 14, 15, 16, 17, 18, 19, 20, 21])) none ∧
      [10, 11, 12, 13, 14, 15, 16, 17, 18, 19, 20, 21].length = 12 :=
  ⟨rfl, rfl, rfl,
    C6_shuffle_oid_involution Env.unlimited [10, 11, 12, 13, 14, 15, 16, 17, 18, 19, 20, 21]
      rfl rfl rfl⟩

/-! ## The element encoder: dispatch on the value -/

/-- Claim C4: for every name (of a length that fits the int name_length) and
every value that is not a unicode object, for example the integer 42,
_element_to_bson returns NULL, so no bytes at all, with the module's own
exception _cbson.error set. -/
theorem C4_non_text_rejected (env : Env) (name : List Nat) (value : PyObject)
    (hname : (name.length : Int) ≤ INT_MAX) (hkind : PyUnicode_Check value = false) :
    _cbson_element_to_bson env [.str name, value]
      = .returned none (some ⟨.CBSONError, "no c encoder for this type yet"⟩) := by
  simp [_cbson_element_to_bson, PyArg_ParseTuple_s_hash_O, convert_s_hash, hname, hkind]

/-- Witness for claim C4: the name x and the integer 42. -/
theorem C4_non_text_rejected_witness :
    (([120] : List Nat).length : Int) ≤ INT_MAX ∧ PyUnicode_Check (.int 42) = false ∧
    _cbson_element_to_bson Env.unlimited [.str [120], .int 42]
      = .returned none (some ⟨.CBSONError, "no c encoder for this type yet"⟩) :=
  ⟨by decide, rfl, C4_non_text_rejected Env.unlimited [120] (.int 42) (by decide) rfl⟩

/-- Claim C5, the code at a failing input: a value whose class U is a proper
subclass of unicode (so its type is not unicode and its tp_name is not
unicode) passes PyUnicode_Check, takes the text branch and is encoded exactly
like the unicode object with the same characters; no _cbson.error is raised. -/
theorem C5_subclass_takes_text_branch :
    PyUnicode_CheckExact (.unicode (some "U") ['a', 'b']) = false ∧
    tp_name (.unicode (some "U") ['a', 'b']) = "U" ∧
    _cbson_element_to_bson Env.unlimited [.str [120], .unicode (some "U") ['a', 'b']]
      = .returned (some (.str [2, 120, 3, 0, 0, 0, 97, 98, 0])) none ∧
    _cbson_element_to_bson Env.unlimited [.str [120], .unicode none ['a', 'b']]
      = .returned (some (.str [2, 120, 3, 0, 0, 0, 97, 98, 0])) none := by
  decide

/-! ## The element encoder: the text branch -/

/-- For a unicode value, once the arguments are parsed and the conversion to
UTF-8 has succeeded, the call is the text branch on the UTF-8 bytes. -/
theorem element_to_bson_unicode (env : Env) (name : List Nat) (cls : Option String)
    (v : List Char) (hname : (name.length : Int) ≤ INT_MAX)
    (hconv : env.utf8_failure v = none) (hsz : (utf8 v).length ≤ PY_SSIZE_T_MAX) :
    _cbson_element_to_bson env [.str name, .unicode cls v]
      = encode_text env name (name.length : Int) (utf8 v) := by
  simp only [_cbson_element_to_bson, PyArg_ParseTuple_s_hash_O, convert_s_hash, if_pos hname,
    PyUnicode_Check, if_true, PyUnicode_AsUTF8String, hconv, if_pos hsz]

/-- When the call on a unicode value returns an object, the arguments were
parsed, the conversion succeeded, and the object comes from the text branch. -/
theorem element_to_bson_some (env : Env) (name : List Nat) (cls : Option String)
    (v : List Char) (res : PyObject) (err : Option PyErr)
    (h : _cbson_element_to_bson env [.str name, .unicode cls v] = .returned (some res) err) :
    (name.length : Int) ≤ INT_MAX ∧ (utf8 v).length ≤ PY_SSIZE_T_MAX ∧
      encode_text env name (name.length : Int) (utf8 v) = .returned (some res) err := by
  by_cases hname : (name.length : Int) ≤ INT_MAX
  · cases hconv : env.utf8_failure v with
    | some e =>
      simp only [_cbson_element_to_bson, PyArg_ParseTuple_s_hash_O, convert_s_hash,
        if_pos hname, PyUnicode_Check, if_true, PyUnicode_AsUTF8String, hconv] at h
      cases h
    | none =>
      by_cases hsz : (utf8 v).length ≤ PY_SSIZE_T_MAX
      · rw [element_to_bson_unicode env name cls v hname hconv hsz] at h
        exact ⟨hname, hsz, h⟩
      · simp only [_cbson_element_to_bson, PyArg_ParseTuple_s_hash_O, convert_s_hash,
          if_pos hname, PyUnicode_Check, if_true, PyUnicode_AsUTF8String, hconv,
          if_neg hsz] at h
        cases h
  · simp only [_cbson_element_to_bson, PyArg_ParseTuple_s_hash_O, convert_s_hash,
      if_neg hname] at h
    cases h

/-- Every object returned for a unicode value: no error is pending, the int
bytes_length is not negative, and the object is the str made of the tag, the
name, the four bytes of bytes_length and the first bytes_length bytes of the
encoded buffer. -/
theorem element_returned (env : Env) (name : List Nat) (cls : Option String)
    (v : List Char) (res : PyObject) (err : Option PyErr)
    (h : _cbson_element_to_bson env [.str name, .unicode cls v] = .returned (some res) err) :
    ∃ n : Nat, bytes_length_of (nulIndex (utf8 v)) = (n : Int) ∧
      (n : Int) ≤ INT_MAX ∧ n ≤ (utf8 v).length + 1 ∧ err = none ∧
      res = .str ([2] ++ name ++ int32_bytes (n : Int) ++ (utf8 v ++ [0]).take n) := by
  obtain ⟨hname, hsz, h2⟩ := element_to_bson_some env name cls v res err h
  obtain ⟨h0, hsrc, hsum, hm, hs⟩ := encode_text_some env name (utf8 v) res err hname hsz h2
  have hfw := encode_text_returns env name (utf8 v) _ rfl h0 hsrc hsum hm hs
  rw [hfw] at h2
  obtain ⟨n, hn⟩ := Int.eq_ofNat_of_zero_le h0
  rw [hn] at h2 hsum hsrc
  simp only [Int.toNat_ofNat, Outcome.returned.injEq, Option.some.injEq] at h2
  exact ⟨n, hn, by omega, by omega, h2.2.symm, h2.1.symm⟩

/-- The int bytes_length is strlen + 1 when that fits an int. -/
theorem bytes_length_exact (len : Nat) (h : (len : Int) + 1 ≤ INT_MAX) :
    bytes_length_of len = (len : Int) + 1 := by
  unfold bytes_length_of
  exact toInt32_of_range _ (by omega) h

/-- The object representation of a non-negative int. -/
theorem int32_bytes_natCast (n : Nat) (h : (n : Int) ≤ INT_MAX) :
    int32_bytes (n : Int)
      = [n % 256, (n / 256) % 256, (n / 65536) % 256, (n / 16777216) % 256] := by
  unfold INT_MAX at h
  have hu : ((n : Int) % 4294967296).toNat = n := by omega
  unfold int32_bytes
  simp only [hu]

/-- Position of the four length bytes in an element. -/
theorem getElem?_frame (name l tail : List Nat) (k : Nat) (hk : k < l.length) :
    ([2] ++ name ++ l ++ tail)[1 + name.length + k]? = l[k]? := by
  have h1 : ([2] ++ name).length = 1 + name.length := by simp; omega
  rw [List.append_assoc, List.getElem?_append_right (by rw [h1]; omega), h1]
  have h2 : 1 + name.length + k - (1 + name.length) = k := by omega
  rw [h2, List.getElem?_append_left hk]

/-- Reading back the four length bytes of an element. -/
theorem read_le32_frame (name tail : List Nat) (n : Nat) (h : (n : Int) ≤ INT_MAX) :
    read_le32 ([2] ++ name ++ int32_bytes (n : Int) ++ tail) (1 + name.length) = n := by
  have hl := length_int32_bytes (n : Int)
  have e0 := getElem?_frame name (int32_bytes (n : Int)) tail 0 (by omega)
  have e1 := getElem?_frame name (int32_bytes (n : Int)) tail 1 (by omega)
  have e2 := getElem?_frame name (int32_bytes (n : Int)) tail 2 (by omega)
  have e3 := getElem?_frame name (int32_bytes (n : Int)) tail 3 (by omega)
  unfold read_le32
  simp only [List.getD_eq_getElem?_getD, Nat.add_assoc] at e0 e1 e2 e3 ⊢
  simp only [Nat.add_zero] at e0
  rw [e0, e1, e2, e3, int32_bytes_natCast n h]
  simp only [List.getElem?_cons_zero, List.getElem?_cons_succ, Option.getD_some]
  unfold INT_MAX at h
  omega

/-- When the allocation is too small even for the tag and the name, the
writes leave the buffer. -/
theorem write_element_none (to_return : Buffer) (name enc_bytes : List Nat)
    (name_length bytes_length : Int) (h : to_return.length < 1 + toSizeT name_length) :
    write_element to_return name name_length enc_bytes bytes_length = none := by
  unfold write_element
  cases hst : store to_return 0 2 with
  | none => rfl
  | some b1 =>
    obtain ⟨_, hl⟩ := store_some _ _ _ _ hst
    have hc : ¬ (1 + toSizeT name_length ≤ b1.length ∧ toSizeT name_length ≤ name.length) := by
      intro hc
      omega
    rw [Option.some_bind]
    unfold memcpy
    rw [if_neg hc]
    rfl

/-- The text branch has undefined behaviour when the wrapped result length is
smaller than 1 + name_length and malloc returns a buffer of that size. -/
theorem encode_text_overflow (env : Env) (name enc : List Nat)
    (hm : env.malloc_ok (toSizeT (return_value_length_of (name.length : Int)
      (bytes_length_of (nulIndex enc)))) = true)
    (hsmall : toSizeT (return_value_length_of (name.length : Int)
      (bytes_length_of (nulIndex enc))) < 1 + toSizeT (name.length : Int)) :
    encode_text env name (name.length : Int) enc = .undefined := by
  rw [encode_text_eq]
  generalize bytes_length_of (nulIndex enc) = bl at hm hsmall ⊢
  generalize hN : toSizeT (return_value_length_of (name.length : Int) bl) = N at hm hsmall ⊢
  generalize return_value_length_of (name.length : Int) bl = rvl
  cases hmal : malloc env N with
  | none =>
    unfold malloc at hmal
    rw [if_pos hm] at hmal
    cases hmal
  | some to_return =>
    obtain ⟨_, hbuf⟩ := malloc_some _ _ _ hmal
    have hlen : to_return.length < 1 + toSizeT (name.length : Int) := by
      rw [hbuf, List.length_replicate]; exact hsmall
    clear hsmall hN
    dsimp only
    rw [write_element_none _ _ _ _ _ hlen]

theorem utf8_replicate_a (n : Nat) : utf8 (List.replicate n 'a') = List.replicate n 97 := by
  induction n with
  | zero => rfl
  | succ k ih =>
    rw [List.replicate_succ, List.replicate_succ, utf8, ih]
    rfl

theorem nulIndex_replicate (n : Nat) : nulIndex (List.replicate n 97) = n := by
  rw [nulIndex_eq_length _ (by intro h; have := List.eq_of_mem_replicate h; omega),
    List.length_replicate]

/-! ## The element encoder: claims about the text branch -/

/-- Claim C3, the code at a failing input: for the name x and the text a, U+0000, b
the full UTF-8 encoding is 61 00 62, so the claimed element is
02 78 04 00 00 00 61 00 62 00; the code stops at the first zero byte and
returns 02 78 02 00 00 00 61 00.  The two scenarios of the claim without a zero
byte are encoded as claimed. -/
theorem C3_embedded_nul_truncates :
    utf8 ['a', Char.ofNat 0, 'b'] = [97, 0, 98] ∧
    _cbson_element_to_bson Env.unlimited [.str [120], .unicode none ['a', Char.ofNat 0, 'b']]
      = .returned (some (.str [2, 120, 2, 0, 0, 0, 97, 0])) none ∧
    [2, 120, 2, 0, 0, 0, 97, 0]
      ≠ [2] ++ [120] ++ [4, 0, 0, 0] ++ utf8 ['a', Char.ofNat 0, 'b'] ++ [0] ∧
    _cbson_element_to_bson Env.unlimited [.str [120], .unicode none ['a', 'b']]
      = .returned (some (.str [2, 120, 3, 0, 0, 0, 97, 98, 0])) none ∧
    _cbson_element_to_bson Env.unlimited [.str [120], .unicode none []]
      = .returned (some (.str [2, 120, 1, 0, 0, 0, 0])) none := by
  decide

/-- Claim C7, the code at a failing input: for the name x supplied with its
terminating zero byte and the text a, U+0000, b the encoder returns
02 78 00 02 00 00 00 61 00; the reader consumes all of it and returns the
name x with the text a, not the text that was encoded.  Without U+0000 (the
text a, b and the empty text) the reader returns what was encoded. -/
theorem C7_round_trip_loses_text_after_nul :
    _cbson_element_to_bson Env.unlimited
        [.str [120, 0], .unicode none ['a', Char.ofNat 0, 'b']]
      = .returned (some (.str [2, 120, 0, 2, 0, 0, 0, 97, 0])) none ∧
    decode_string_element [2, 120, 0, 2, 0, 0, 0, 97, 0] = some ([120], ['a']) ∧
    (([120], ['a']) : List Nat × List Char) ≠ ([120], ['a', Char.ofNat 0, 'b']) ∧
    _cbson_element_to_bson Env.unlimited [.str [120, 0], .unicode none ['a', 'b']]
      = .returned (some (.str [2, 120, 0, 3, 0, 0, 0, 97, 98, 0])) none ∧
    decode_string_element [2, 120, 0, 3, 0, 0, 0, 97, 98, 0] = some ([120], ['a', 'b']) ∧
    _cbson_element_to_bson Env.unlimited [.str [120, 0], .unicode none []]
      = .returned (some (.str [2, 120, 0, 1, 0, 0, 0, 0])) none ∧
    decode_string_element [2, 120, 0, 1, 0, 0, 0, 0] = some ([120], []) := by
  decide

/-- The element returned when nothing wraps: tag, name, the four bytes of
strlen + 1, the encoded bytes before the first zero byte, and one zero byte. -/
theorem element_when_fit (env : Env) (name : List Nat) (cls : Option String) (v : List Char)
    (hfit : 5 + (name.length : Int) + ((nulIndex (utf8 v) : Int) + 1) ≤ INT_MAX)
    (hconv : env.utf8_failure v = none) (hsz : (utf8 v).length ≤ PY_SSIZE_T_MAX)
    (hm : env.malloc_ok (5 + name.length + (nulIndex (utf8 v) + 1)) = true)
    (hs : env.newString_ok (5 + name.length + (nulIndex (utf8 v) + 1)) = true) :
    _cbson_element_to_bson env [.str name, .unicode cls v]
      = .returned (some (.str ([2] ++ name ++ int32_bytes ((nulIndex (utf8 v) + 1 : Nat) : Int)
          ++ ((utf8 v).take (nulIndex (utf8 v)) ++ [0])))) none := by
  have hname : (name.length : Int) ≤ INT_MAX := by omega
  have hbl : bytes_length_of (nulIndex (utf8 v)) = ((nulIndex (utf8 v) + 1 : Nat) : Int) := by
    rw [bytes_length_exact _ (by omega)]
    push_cast
    rfl
  have hle := nulIndex_le_length (utf8 v)
  rw [element_to_bson_unicode env name cls v hname hconv hsz,
    encode_text_returns env name (utf8 v) _ hbl (Int.natCast_nonneg _)
      (by push_cast; omega) (by push_cast; omega)
      (by rw [Int.toNat_ofNat]; exact hm) (by rw [Int.toNat_ofNat]; exact hs),
    Int.toNat_ofNat, take_succ_nulIndex]

/-- Claim C8 as amended: whenever the encoder returns an element for a text
value, its length is 1 + name_length + 4 + payload_len, where payload_len is
the integer stored in the four bytes after the name, and payload_len bytes
follow those four; whenever strlen + 1 fits an int, payload_len is strlen + 1,
so it is at least 1, and the last byte is the terminating zero byte. -/
theorem C8_lengths_self_consistent (env : Env) (name : List Nat) (cls : Option String)
    (v : List Char) (out : List Nat) (err : Option PyErr)
    (h : _cbson_element_to_bson env [.str name, .unicode cls v]
      = .returned (some (.str out)) err) :
    out.length = 1 + name.length + 4 + read_le32 out (1 + name.length) ∧
    (out.drop (1 + name.length + 4)).length = read_le32 out (1 + name.length) ∧
    ((nulIndex (utf8 v) : Int) + 1 ≤ INT_MAX →
      read_le32 out (1 + name.length) = nulIndex (utf8 v) + 1 ∧
      1 ≤ read_le32 out (1 + name.length) ∧
      out.getLast? = some 0) := by
  obtain ⟨n, hn, hle, hsrc, _, hres⟩ := element_returned env name cls v (.str out) err h
  simp only [PyObject.str.injEq] at hres
  have hread := read_le32_frame name ((utf8 v ++ [0]).take n) n hle
  rw [← hres] at hread
  have hlen : out.length = 1 + name.length + 4 + n := by
    rw [hres]
    simp [length_int32_bytes, List.length_take]
    omega
  rw [hread]
  refine ⟨hlen, by rw [List.length_drop, hlen]; omega, ?_⟩
  intro hfit
  have e : (n : Int) = (nulIndex (utf8 v) : Int) + 1 := hn.symm.trans (bytes_length_exact _ hfit)
  have e2 : n = nulIndex (utf8 v) + 1 := by exact_mod_cast e
  refine ⟨e2, by rw [e2]; exact Nat.le_add_left 1 _, ?_⟩
  rw [hres, e2, take_succ_nulIndex, ← List.append_assoc, List.getLast?_append]
  rfl

/-- Witness for claim C8: the name x and the text a, b. -/
theorem C8_lengths_self_consistent_witness :
    _cbson_element_to_bson Env.unlimited [.str [120], .unicode none ['a', 'b']]
      = .returned (some (.str [2, 120, 3, 0, 0, 0, 97, 98, 0])) none ∧
    [2, 120, 3, 0, 0, 0, 97, 98, 0].length
      = 1 + [120].length + 4 + read_le32 [2, 120, 3, 0, 0, 0, 97, 98, 0] (1 + [120].length) ∧
    (([2, 120, 3, 0, 0, 0, 97, 98, 0] : List Nat).drop (1 + [120].length + 4)).length
      = read_le32 [2, 120, 3, 0, 0, 0, 97, 98, 0] (1 + [120].length) ∧
    ((nulIndex (utf8 ['a', 'b']) : Int) + 1 ≤ INT_MAX →
      read_le32 [2, 120, 3, 0, 0, 0, 97, 98, 0] (1 + [120].length)
        = nulIndex (utf8 ['a', 'b']) + 1 ∧
      1 ≤ read_le32 [2, 120, 3, 0, 0, 0, 97, 98, 0] (1 + [120].length) ∧
      ([2, 120, 3, 0, 0, 0, 97, 98, 0] : List Nat).getLast? = some 0) :=
  ⟨by decide,
    C8_lengths_self_consistent Env.unlimited [120] none ['a', 'b']
      [2, 120, 3, 0, 0, 0, 97, 98, 0] none (by decide)⟩

/-- Claim C8 fails as stated: for the name x and a text of 2^32 - 1 letters a,
strlen + 1 is 2^32 and wraps to the int 0; the encoder succeeds and returns
02 78 00 00 00 00, whose stored payload_len is 0, not at least 1, and no
payload byte and no terminating zero byte follows the length. -/
theorem C8_payload_len_zero_on_wrap :
    _cbson_element_to_bson Env.unlimited
        [.str [120], .unicode none (List.replicate 4294967295 'a')]
      = .returned (some (.str [2, 120, 0, 0, 0, 0])) none ∧
    read_le32 [2, 120, 0, 0, 0, 0] (1 + [120].length) = 0 ∧
    ¬ (1 ≤ read_le32 [2, 120, 0, 0, 0, 0] (1 + [120].length)) ∧
    ([2, 120, 0, 0, 0, 0] : List Nat).drop (1 + [120].length + 4) = [] := by
  refine ⟨?_, by decide, by decide, by decide⟩
  have hu : utf8 (List.replicate 4294967295 'a') = List.replicate 4294967295 97 :=
    utf8_replicate_a _
  have hname : (([120] : List Nat).length : Int) ≤ INT_MAX := by decide
  have hsz : (utf8 (List.replicate 4294967295 'a')).length ≤ PY_SSIZE_T_MAX := by
    rw [hu, List.length_replicate]
    decide
  have hbl : bytes_length_of (nulIndex (utf8 (List.replicate 4294967295 'a'))) = 0 := by
    rw [hu, nulIndex_replicate]
    decide
  rw [element_to_bson_unicode Env.unlimited [120] none _ hname rfl hsz,
    encode_text_returns Env.unlimited [120] _ 0 hbl (by decide)
      (Int.add_nonneg (Int.natCast_nonneg _) (by decide)) (by decide) rfl rfl]
  have ht : (0 : Int).toNat = 0 := rfl
  rw [ht, List.take_zero]
  rfl

/-- Claim C9 as amended: for every name and text value for which
5 + name_length + strlen + 1 does not exceed INT_MAX, the int bytes_length is
exactly strlen + 1 and the int return_value_length is exactly
5 + name_length + bytes_length, the size passed to malloc is the number of
bytes written (1 + name_length + 4 + bytes_length), and when the conversion and
the allocations succeed the encoder returns an element of exactly that size. -/
theorem C9_sizes_exact_when_fit (name : List Nat) (v : List Char)
    (hfit : 5 + (name.length : Int) + ((nulIndex (utf8 v) : Int) + 1) ≤ INT_MAX) :
    strlen (PyString_AsString (utf8 v)) = some (nulIndex (utf8 v)) ∧
    bytes_length_of (nulIndex (utf8 v)) = (nulIndex (utf8 v) : Int) + 1 ∧
    return_value_length_of (name.length : Int) (bytes_length_of (nulIndex (utf8 v)))
      = 5 + (name.length : Int) + ((nulIndex (utf8 v) : Int) + 1) ∧
    toSizeT (return_value_length_of (name.length : Int) (bytes_length_of (nulIndex (utf8 v))))
      = 1 + toSizeT (name.length : Int) + 4 + toSizeT (bytes_length_of (nulIndex (utf8 v))) ∧
    (∀ (env : Env) (cls : Option String), env.utf8_failure v = none →
      (utf8 v).length ≤ PY_SSIZE_T_MAX →
      env.malloc_ok (5 + name.length + (nulIndex (utf8 v) + 1)) = true →
      env.newString_ok (5 + name.length + (nulIndex (utf8 v) + 1)) = true →
      ∃ out : List Nat,
        _cbson_element_to_bson env [.str name, .unicode cls v]
          = .returned (some (.str out)) none ∧
        out.length = 5 + name.length + (nulIndex (utf8 v) + 1)) := by
  have hbl : bytes_length_of (nulIndex (utf8 v)) = (nulIndex (utf8 v) : Int) + 1 :=
    bytes_length_exact _ (by omega)
  have hrv : return_value_length_of (name.length : Int) ((nulIndex (utf8 v) : Int) + 1)
      = 5 + (name.length : Int) + ((nulIndex (utf8 v) : Int) + 1) := by
    unfold return_value_length_of
    exact toInt32_of_range _ (by omega) hfit
  refine ⟨strlen_append_zero _, hbl, by rw [hbl, hrv], ?_, ?_⟩
  · rw [hbl, hrv, toSizeT_of_nonneg _ (by omega) hfit,
      toSizeT_of_nonneg _ (Int.natCast_nonneg _) (by omega),
      toSizeT_of_nonneg _ (by omega) (by omega)]
    omega
  · intro env cls hconv hsz hm hs
    refine ⟨_, element_when_fit env name cls v hfit hconv hsz hm hs, ?_⟩
    have hle := nulIndex_le_length (utf8 v)
    simp [length_int32_bytes, List.length_take]
    omega

/-- Witness for claim C9: the name x and the text a, b. -/
theorem C9_sizes_exact_when_fit_witness :
    5 + (([120] : List Nat).length : Int) + ((nulIndex (utf8 ['a', 'b']) : Int) + 1) ≤ INT_MAX ∧
    bytes_length_of (nulIndex (utf8 ['a', 'b'])) = (nulIndex (utf8 ['a', 'b']) : Int) + 1 :=
  ⟨by decide, (C9_sizes_exact_when_fit [120] ['a', 'b'] (by decide)).2.1⟩

/-- Claim C9 fails as stated: for a name of 2^31 - 1 bytes and a text of
2^31 - 2 letters a, both accepted by the encoder, bytes_length is 2^31 - 1 and
the sum 5 + name_length + bytes_length is 2^32 + 3, which wraps to the int 3;
malloc(3) is smaller than the bytes copied, and the copy of the name writes
past the end of the buffer. -/
theorem C9_return_value_length_wraps :
    ((List.replicate 2147483647 97 : List Nat).length : Int) ≤ INT_MAX ∧
    bytes_length_of (nulIndex (utf8 (List.replicate 2147483646 'a'))) = 2147483647 ∧
    5 + ((List.replicate 2147483647 97 : List Nat).length : Int)
      + bytes_length_of (nulIndex (utf8 (List.replicate 2147483646 'a'))) = 4294967299 ∧
    return_value_length_of ((List.replicate 2147483647 97 : List Nat).length : Int)
      (bytes_length_of (nulIndex (utf8 (List.replicate 2147483646 'a')))) = 3 ∧
    _cbson_element_to_bson Env.unlimited
        [.str (List.replicate 2147483647 97), .unicode none (List.replicate 2147483646 'a')]
      = .undefined := by
  have hu : utf8 (List.replicate 2147483646 'a') = List.replicate 2147483646 97 :=
    utf8_replicate_a _
  have hname : ((List.replicate 2147483647 97 : List Nat).length : Int) ≤ INT_MAX := by
    rw [List.length_replicate]
    decide
  have hsz : (utf8 (List.replicate 2147483646 'a')).length ≤ PY_SSIZE_T_MAX := by
    rw [hu, List.length_replicate]
    decide
  refine ⟨hname, ?_, ?_, ?_, ?_⟩
  · rw [hu, nulIndex_replicate]
    decide
  · rw [hu, nulIndex_replicate, List.length_replicate]
    decide
  · rw [hu, nulIndex_replicate, List.length_replicate]
    decide
  · rw [element_to_bson_unicode Env.unlimited _ none _ hname rfl hsz]
    apply encode_text_overflow
    · rfl
    · rw [hu, nulIndex_replicate, List.length_replicate]
      decide

/-- Claim C10: whenever the encoder returns an element for a text value, the
int bytes_length (the payload_len the code computed) is a natural number below
2^31, byte k of the four bytes at offsets 1 + name_length .. 4 + name_length is
(payload_len / 256^k) mod 256, reading the four bytes as a little-endian
unsigned integer gives payload_len back, and payload_len is strlen + 1 whenever
strlen + 1 fits an int. -/
theorem C10_length_prefix_little_endian (env : Env) (name : List Nat) (cls : Option String)
    (v : List Char) (out : List Nat) (err : Option PyErr)
    (h : _cbson_element_to_bson env [.str name, .unicode cls v]
      = .returned (some (.str out)) err) :
    ∃ payload_len : Nat,
      bytes_length_of (nulIndex (utf8 v)) = (payload_len : Int) ∧
      payload_len ≤ 2147483647 ∧
      (∀ k, k < 4 → out[1 + name.length + k]? = some ((payload_len / 256 ^ k) % 256)) ∧
      read_le32 out (1 + name.length) = payload_len ∧
      ((nulIndex (utf8 v) : Int) + 1 ≤ INT_MAX →
        payload_len = nulIndex (utf8 v) + 1 ∧ 1 ≤ payload_len) := by
  obtain ⟨n, hn, hle, hsrc, _, hres⟩ := element_returned env name cls v (.str out) err h
  simp only [PyObject.str.injEq] at hres
  refine ⟨n, hn, by unfold INT_MAX at hle; omega, ?_, ?_, ?_⟩
  · intro k hk
    rw [hres, getElem?_frame _ _ _ k (by rw [length_int32_bytes]; exact hk),
      int32_bytes_natCast n hle]
    interval_cases k <;> simp
  · rw [hres]
    exact read_le32_frame name _ n hle
  · intro hfit
    have e : (n : Int) = (nulIndex (utf8 v) : Int) + 1 :=
      hn.symm.trans (bytes_length_exact _ hfit)
    have e2 : n = nulIndex (utf8 v) + 1 := by exact_mod_cast e
    exact ⟨e2, by rw [e2]; exact Nat.le_add_left 1 _⟩

/-- Witness for claim C10: the name x and the text a, b, whose length bytes
are 03 00 00 00. -/
theorem C10_length_prefix_little_endian_witness :
    _cbson_element_to_bson Env.unlimited [.str [120], .unicode none ['a', 'b']]
      = .returned (some (.str [2, 120, 3, 0, 0, 0, 97, 98, 0])) none ∧
    ∃ payload_len : Nat,
      bytes_length_of (nulIndex (utf8 ['a', 'b'])) = (payload_len : Int) ∧
      payload_len ≤ 2147483647 ∧
      (∀ k, k < 4 → ([2, 120, 3, 0, 0, 0, 97, 98, 0] : List Nat)[1 + [120].length + k]?
        = some ((payload_len / 256 ^ k) % 256)) ∧
      read_le32 [2, 120, 3, 0, 0, 0, 97, 98, 0] (1 + [120].length) = payload_len ∧
      ((nulIndex (utf8 ['a', 'b']) : Int) + 1 ≤ INT_MAX →
        payload_len = nulIndex (utf8 ['a', 'b']) + 1 ∧ 1 ≤ payload_len) :=
  ⟨by decide,
    C10_length_prefix_little_endian Env.unlimited [120] none ['a', 'b']
      [2, 120, 3, 0, 0, 0, 97, 98, 0] none (by decide)⟩

/-! ## Reading an element back: texts without U+0000 -/

theorem char_toNat_valid (c : Char) :
    c.toNat < 55296 ∨ (57343 < c.toNat ∧ c.toNat < 1114112) := c.valid

theorem utf8Decode_one (b0 : Nat) (rest : List Nat) (h : b0 < 128) :
    utf8Decode (b0 :: rest) = consChar b0 (utf8Decode rest) := by
  rw [utf8Decode.eq_def]
  simp only [if_pos h]

theorem utf8Decode_two (b0 b1 : Nat) (rest : List Nat) (h0 : 192 ≤ b0 ∧ b0 < 224)
    (h1 : 128 ≤ b1 ∧ b1 < 192 ∧ 128 ≤ (b0 - 192) * 64 + (b1 - 128)) :
    utf8Decode (b0 :: b1 :: rest)
      = consChar ((b0 - 192) * 64 + (b1 - 128)) (utf8Decode rest) := by
  rw [utf8Decode.eq_def]
  simp only [if_neg (show ¬ b0 < 128 by omega), if_pos h0, if_pos h1]

theorem utf8Decode_three (b0 b1 b2 : Nat) (rest : List Nat) (h0 : 224 ≤ b0 ∧ b0 < 240)
    (h1 : 128 ≤ b1 ∧ b1 < 192 ∧ 128 ≤ b2 ∧ b2 < 192
      ∧ 2048 ≤ (b0 - 224) * 4096 + (b1 - 128) * 64 + (b2 - 128)
      ∧ ¬ (55296 ≤ (b0 - 224) * 4096 + (b1 - 128) * 64 + (b2 - 128)
        ∧ (b0 - 224) * 4096 + (b1 - 128) * 64 + (b2 - 128) < 57344)) :
    utf8Decode (b0 :: b1 :: b2 :: rest)
      = consChar ((b0 - 224) * 4096 + (b1 - 128) * 64 + (b2 - 128)) (utf8Decode rest) := by
  rw [utf8Decode.eq_def]
  simp only [if_neg (show ¬ b0 < 128 by omega), if_neg (show ¬ (192 ≤ b0 ∧ b0 < 224) by omega),
    if_pos h0, if_pos h1]

theorem utf8Decode_four (b0 b1 b2 b3 : Nat) (rest : List Nat) (h0 : 240 ≤ b0 ∧ b0 < 248)
    (h1 : 128 ≤ b1 ∧ b1 < 192 ∧ 128 ≤ b2 ∧ b2 < 192 ∧ 128 ≤ b3 ∧ b3 < 192
      ∧ 65536 ≤ (b0 - 240) * 262144 + (b1 - 128) * 4096 + (b2 - 128) * 64 + (b3 - 128)
      ∧ (b0 - 240) * 262144 + (b1 - 128) * 4096 + (b2 - 128) * 64 + (b3 - 128) < 1114112) :
    utf8Decode (b0 :: b1 :: b2 :: b3 :: rest)
      = consChar ((b0 - 240) * 262144 + (b1 - 128) * 4096 + (b2 - 128) * 64 + (b3 - 128))
          (utf8Decode rest) := by
  rw [utf8Decode.eq_def]
  simp only [if_neg (show ¬ b0 < 128 by omega), if_neg (show ¬ (192 ≤ b0 ∧ b0 < 224) by omega),
    if_neg (show ¬ (224 ≤ b0 ∧ b0 < 240) by omega), if_pos h0, if_pos h1]

theorem utf8Decode_encodeChar (n : Nat) (rest : List Nat)
    (hv : n < 55296 ∨ (57343 < n ∧ n < 1114112)) :
    utf8Decode (utf8EncodeChar n ++ rest) = consChar n (utf8Decode rest) := by
  unfold utf8EncodeChar
  by_cases h1 : n < 128
  · rw [if_pos h1, List.singleton_append, utf8Decode_one _ _ h1]
  · rw [if_neg h1]
    by_cases h2 : n < 2048
    · rw [if_pos h2]
      have e : (192 + n / 64 - 192) * 64 + (128 + n % 64 - 128) = n := by omega
      have h := utf8Decode_two (192 + n / 64) (128 + n % 64) rest (by omega) (by omega)
      rw [e] at h
      exact h
    · rw [if_neg h2]
      by_cases h3 : n < 65536
      · rw [if_pos h3]
        have e : (224 + n / 4096 - 224) * 4096 + (128 + n / 64 % 64 - 128) * 64
            + (128 + n % 64 - 128) = n := by omega
        have h := utf8Decode_three (224 + n / 4096) (128 + n / 64 % 64) (128 + n % 64) rest
          (by omega) (by omega)
        rw [e] at h
        exact h
      · rw [if_neg h3]
        have e : (240 + n / 262144 - 240) * 262144 + (128 + n / 4096 % 64 - 128) * 4096
            + (128 + n / 64 % 64 - 128) * 64 + (128 + n % 64 - 128) = n := by omega
        have h := utf8Decode_four (240 + n / 262144) (128 + n / 4096 % 64) (128 + n / 64 % 64)
          (128 + n % 64) rest (by omega) (by omega)
        rw [e] at h
        exact h

theorem utf8Decode_utf8 (cs : List Char) : utf8Decode (utf8 cs) = some cs := by
  induction cs with
  | nil => rfl
  | cons c rest ih =>
    rw [utf8, utf8Decode_encodeChar _ _ (char_toNat_valid c), ih]
    simp [consChar, Char.ofNat_toNat]


theorem nulIndex_append_zero (name tail : List Nat) (h : 0 ∉ name) :
    nulIndex (name ++ 0 :: tail) = name.length := by
  induction name with
  | nil => simp [nulIndex]
  | cons b rest ih =>
    have hb : b ≠ 0 := fun hb => h (by simp [hb])
    have hr : 0 ∉ rest := fun hr => h (by simp [hr])
    simp [nulIndex, hb, ih hr]

theorem read_le32_int32_bytes (n : Nat) (tail : List Nat) (h : (n : Int) ≤ INT_MAX) :
    read_le32 (int32_bytes (n : Int) ++ tail) 0 = n := by
  rw [int32_bytes_natCast n h]
  unfold INT_MAX at h
  simp [read_le32]
  omega

/-- The reader applied to a well-formed string element. -/
theorem decode_string_element_frame (name u : List Nat) (v : List Char) (n : Nat)
    (hname0 : 0 ∉ name) (hn : n = u.length + 1) (hle : (n : Int) ≤ INT_MAX)
    (hdec : utf8Decode u = some v) :
    decode_string_element ([2] ++ (name ++ [0]) ++ int32_bytes (n : Int) ++ (u ++ [0]))
      = some (name, v) := by
  have hlist : [2] ++ (name ++ [0]) ++ int32_bytes (n : Int) ++ (u ++ [0])
      = 2 :: (name ++ 0 :: (int32_bytes (n : Int) ++ (u ++ [0]))) := by simp
  have hidx := nulIndex_append_zero name (int32_bytes (n : Int) ++ (u ++ [0])) hname0
  have htake : (name ++ 0 :: (int32_bytes (n : Int) ++ (u ++ [0]))).take name.length = name := by
    rw [List.take_left]
  have hdrop : (name ++ 0 :: (int32_bytes (n : Int) ++ (u ++ [0]))).drop (name.length + 1)
      = int32_bytes (n : Int) ++ (u ++ [0]) := by
    rw [← List.drop_drop, List.drop_left]
    rfl
  have hread := read_le32_int32_bytes n (u ++ [0]) hle
  have hbody : (int32_bytes (n : Int) ++ (u ++ [0])).drop 4 = u ++ [0] := by
    rw [← length_int32_bytes (n : Int), List.drop_left]
  have hc1 : (2 : Nat) = 2 ∧ nulIndex (name ++ 0 :: (int32_bytes (n : Int) ++ (u ++ [0])))
      < (name ++ 0 :: (int32_bytes (n : Int) ++ (u ++ [0]))).length := by
    refine ⟨rfl, ?_⟩
    rw [hidx]
    simp
  have hc2 : 4 ≤ (int32_bytes (n : Int) ++ (u ++ [0])).length ∧ 1 ≤ n ∧ (u ++ [0]).length = n
      ∧ (u ++ [0]).getD (n - 1) 1 = 0 := by
    refine ⟨by simp [length_int32_bytes], by omega, by simp [hn], ?_⟩
    have : n - 1 = u.length := by omega
    rw [this]
    simp
  have htk : (u ++ [0]).take (n - 1) = u := by
    have : n - 1 = u.length := by omega
    rw [this, List.take_left]
  rw [hlist]
  unfold decode_string_element
  simp only [hidx, htake, hdrop, hread, hbody, if_pos hc2, htk, hdec]
  rw [hidx] at hc1
  rw [if_pos ⟨trivial, hc1.2⟩]

/-- The element returned for a text without U+0000 when nothing wraps and
nothing fails: tag, name, the four bytes of the payload length, the whole UTF-8
encoding and one zero byte. -/
theorem element_without_nul (env : Env) (name : List Nat) (cls : Option String)
    (v : List Char) (hv : 0 ∉ utf8 v)
    (hfit : 5 + (name.length : Int) + (((utf8 v).length : Int) + 1) ≤ INT_MAX)
    (hconv : env.utf8_failure v = none)
    (hm : env.malloc_ok (5 + name.length + ((utf8 v).length + 1)) = true)
    (hs : env.newString_ok (5 + name.length + ((utf8 v).length + 1)) = true) :
    _cbson_element_to_bson env [.str name, .unicode cls v]
      = .returned (some (.str ([2] ++ name ++ int32_bytes (((utf8 v).length + 1 : Nat) : Int)
          ++ (utf8 v ++ [0])))) none := by
  have hidx : nulIndex (utf8 v) = (utf8 v).length := nulIndex_eq_length _ hv
  have hsz : (utf8 v).length ≤ PY_SSIZE_T_MAX := by
    unfold INT_MAX at hfit
    unfold PY_SSIZE_T_MAX
    omega
  rw [← hidx] at hfit hm hs
  have h := element_when_fit env name cls v hfit hconv hsz hm hs
  rw [hidx, List.take_length] at h
  exact h

/-- Round trip for a text without U+0000: when nothing wraps and nothing fails,
the reader applied to the bytes returned for a name given with its terminating
zero byte returns the name and the text. -/
theorem round_trip_without_nul (env : Env) (name : List Nat) (cls : Option String)
    (v : List Char) (hname0 : 0 ∉ name) (hv : 0 ∉ utf8 v)
    (hfit : 5 + ((name ++ [0]).length : Int) + (((utf8 v).length : Int) + 1) ≤ INT_MAX)
    (hconv : env.utf8_failure v = none)
    (hm : env.malloc_ok (5 + (name ++ [0]).length + ((utf8 v).length + 1)) = true)
    (hs : env.newString_ok (5 + (name ++ [0]).length + ((utf8 v).length + 1)) = true) :
    ∃ out : List Nat,
      _cbson_element_to_bson env [.str (name ++ [0]), .unicode cls v]
        = .returned (some (.str out)) none ∧
      decode_string_element out = some (name, v) := by
  refine ⟨_, element_without_nul env (name ++ [0]) cls v hv hfit hconv hm hs, ?_⟩
  exact decode_string_element_frame name (utf8 v) v _ hname0 rfl (by push_cast; omega)
    (utf8Decode_utf8 v)

/-! ## The element encoder: the errors it reports -/

/-- Claim C11 fails as stated: the integer 42 and a list have different types
(tp_name int and list), both are rejected, and the two reported errors are the
same exception class with the same message, so neither identifies the type of
the rejected value. -/
theorem C11_rejections_identical :
    tp_name (.int 42) ≠ tp_name (.other "list") ∧
    _cbson_element_to_bson Env.unlimited [.str [120], .int 42]
      = .returned none (some ⟨.CBSONError, "no c encoder for this type yet"⟩) ∧
    _cbson_element_to_bson Env.unlimited [.str [120], .other "list"]
      = .returned none (some ⟨.CBSONError, "no c encoder for this type yet"⟩) ∧
    _cbson_element_to_bson Env.unlimited [.str [120], .int 42]
      = _cbson_element_to_bson Env.unlimited [.str [120], .other "list"] := by
  decide

/-- Claim C11 as amended: every rejected value, whatever its type, is reported
with the exception _cbson.error and the fixed message no c encoder for this
type yet; the type name read from the value is not part of the error, so two
rejected values of different types are reported identically. -/
theorem C11_rejection_error_is_constant (env : Env) (name : List Nat) (v1 v2 : PyObject)
    (hname : (name.length : Int) ≤ INT_MAX)
    (h1 : PyUnicode_Check v1 = false) (h2 : PyUnicode_Check v2 = false) :
    _cbson_element_to_bson env [.str name, v1]
      = .returned none (some ⟨.CBSONError, "no c encoder for this type yet"⟩) ∧
    _cbson_element_to_bson env [.str name, v1] = _cbson_element_to_bson env [.str name, v2] := by
  have e1 : _cbson_element_to_bson env [.str name, v1]
      = .returned none (some ⟨.CBSONError, "no c encoder for this type yet"⟩) := by
    simp [_cbson_element_to_bson, PyArg_ParseTuple_s_hash_O, convert_s_hash, hname, h1]
  have e2 : _cbson_element_to_bson env [.str name, v2]
      = .returned none (some ⟨.CBSONError, "no c encoder for this type yet"⟩) := by
    simp [_cbson_element_to_bson, PyArg_ParseTuple_s_hash_O, convert_s_hash, hname, h2]
  exact ⟨e1, e1.trans e2.symm⟩

/-- Witness for claim C11: the name x, the integer 42 and a list. -/
theorem C11_rejection_error_is_constant_witness :
    (([120] : List Nat).length : Int) ≤ INT_MAX ∧
    PyUnicode_Check (.int 42) = false ∧ PyUnicode_Check (.other "list") = false ∧
    _cbson_element_to_bson Env.unlimited [.str [120], .int 42]
      = .returned none (some ⟨.CBSONError, "no c encoder for this type yet"⟩) ∧
    _cbson_element_to_bson Env.unlimited [.str [120], .int 42]
      = _cbson_element_to_bson Env.unlimited [.str [120], .other "list"] :=
  ⟨by decide, rfl, rfl,
    C11_rejection_error_is_constant Env.unlimited [120] (.int 42) (.other "list") (by decide)
      rfl rfl⟩

/-- The conversion to UTF-8 succeeds exactly when the environment reports no
failure and the encoding fits a Python str; the result is the encoding. -/
theorem asUTF8_ok_iff (env : Env) (cls : Option String) (v : List Char) (b : List Nat) :
    PyUnicode_AsUTF8String env (.unicode cls v) = .ok b
      ↔ env.utf8_failure v = none ∧ (utf8 v).length ≤ PY_SSIZE_T_MAX ∧ b = utf8 v := by
  cases hconv : env.utf8_failure v with
  | some e => simp [PyUnicode_AsUTF8String, hconv]
  | none =>
    by_cases hsz : (utf8 v).length ≤ PY_SSIZE_T_MAX
    · have e : PyUnicode_AsUTF8String env (.unicode cls v) = .ok (utf8 v) := by
        simp only [PyUnicode_AsUTF8String, hconv, if_pos hsz]
      rw [e]
      constructor
      · intro h
        injection h with h
        exact ⟨rfl, hsz, h.symm⟩
      · intro h
        rw [h.2.2]
    · have e : PyUnicode_AsUTF8String env (.unicode cls v) = .error ⟨.MemoryError, ""⟩ := by
        simp only [PyUnicode_AsUTF8String, hconv, if_neg hsz]
      rw [e]
      constructor
      · intro h
        cases h
      · intro h
        exact absurd h.2.1 hsz

/-- When the conversion to UTF-8 fails, the call returns NULL with the error of
the conversion. -/
theorem element_conversion_error (env : Env) (name : List Nat) (cls : Option String)
    (v : List Char) (e : PyErr) (hname : (name.length : Int) ≤ INT_MAX)
    (h : PyUnicode_AsUTF8String env (.unicode cls v) = .error e) :
    _cbson_element_to_bson env [.str name, .unicode cls v] = .returned none (some e) := by
  simp only [_cbson_element_to_bson, PyArg_ParseTuple_s_hash_O, convert_s_hash, if_pos hname,
    PyUnicode_Check, if_true, h]

/-- When the allocation of the result str fails, Py_BuildValue returns NULL with
MemoryError. -/
theorem buildValue_alloc_fails (env : Env) (err : Option PyErr) (p : Buffer) (n : Nat)
    (hs : env.newString_ok n = false) :
    Py_BuildValue_s_hash env err p (n : Int) = .returned none (some ⟨.MemoryError, ""⟩) := by
  unfold Py_BuildValue_s_hash
  have h1 : ¬ ((n : Int) < 0) := by omega
  rw [if_neg h1, Int.toNat_ofNat, hs]
  rfl

/-- The text branch when nothing wraps: it returns the element if both
allocations succeed and NULL with MemoryError otherwise. -/
theorem encode_text_fit_eq (env : Env) (name enc : List Nat)
    (hfit : 5 + (name.length : Int) + ((nulIndex enc : Int) + 1) ≤ INT_MAX) :
    encode_text env name (name.length : Int) enc
      = if env.malloc_ok (5 + name.length + (nulIndex enc + 1)) = true then
          if env.newString_ok (5 + name.length + (nulIndex enc + 1)) = true then
            .returned (some (.str ([2] ++ name
              ++ int32_bytes ((nulIndex enc + 1 : Nat) : Int)
              ++ (enc.take (nulIndex enc) ++ [0])))) none
          else .returned none (some ⟨.MemoryError, ""⟩)
        else .returned none (some ⟨.MemoryError, ""⟩) := by
  have hle := nulIndex_le_length enc
  have hbl : bytes_length_of (nulIndex enc) = ((nulIndex enc + 1 : Nat) : Int) := by
    rw [bytes_length_exact _ (by omega)]
    push_cast
    rfl
  have hrv : return_value_length_of (name.length : Int) ((nulIndex enc + 1 : Nat) : Int)
      = ((5 + name.length + (nulIndex enc + 1) : Nat) : Int) := by
    unfold return_value_length_of
    rw [toInt32_of_range _ (by omega) (by push_cast; omega)]
    push_cast
    ring
  have hrs : toSizeT ((5 + name.length + (nulIndex enc + 1) : Nat) : Int)
      = 5 + name.length + (nulIndex enc + 1) := by
    rw [toSizeT_of_nonneg _ (by omega) (by push_cast; omega)]
    omega
  have hnl : toSizeT (name.length : Int) = name.length := by
    rw [toSizeT_of_nonneg _ (by omega) (by omega)]
    omega
  have hbs : toSizeT ((nulIndex enc + 1 : Nat) : Int) = nulIndex enc + 1 := by
    rw [toSizeT_of_nonneg _ (by omega) (by push_cast; omega)]
    omega
  by_cases hm : env.malloc_ok (5 + name.length + (nulIndex enc + 1)) = true
  · rw [if_pos hm]
    by_cases hs : env.newString_ok (5 + name.length + (nulIndex enc + 1)) = true
    · rw [if_pos hs,
        encode_text_returns env name enc _ hbl (Int.natCast_nonneg _) (by push_cast; omega)
          (by push_cast; omega) (by rw [Int.toNat_ofNat]; exact hm)
          (by rw [Int.toNat_ofNat]; exact hs),
        Int.toNat_ofNat, take_succ_nulIndex]
    · rw [if_neg hs, encode_text_eq, hbl, hrv, hrs]
      unfold malloc
      rw [if_pos hm]
      simp only []
      rw [write_element_fresh name (enc ++ [0]) (nulIndex enc + 1) hnl hbs (by simp; omega)]
      simp only []
      exact buildValue_alloc_fails env none _ _ (by simpa using hs)
  · rw [if_neg hm, encode_text_eq, hbl, hrv, hrs]
    unfold malloc
    rw [if_neg hm]
    rfl

/-- Claim C12 as amended: for every name and text value with
5 + name_length + strlen + 1 not above INT_MAX, (1) when the conversion to UTF-8
fails the encoder returns NULL with the error of the conversion, (2) when the
conversion and both allocations succeed the encoder returns an element, (3)
when the conversion succeeds and an allocation fails it returns NULL with
MemoryError, and so (4) it returns an object if and only if the conversion and
both allocations succeed. -/
theorem C12_text_fails_iff_conversion_or_allocation_fails (env : Env) (name : List Nat)
    (cls : Option String) (v : List Char)
    (hfit : 5 + (name.length : Int) + ((nulIndex (utf8 v) : Int) + 1) ≤ INT_MAX) :
    (∀ e, PyUnicode_AsUTF8String env (.unicode cls v) = .error e →
      _cbson_element_to_bson env [.str name, .unicode cls v] = .returned none (some e)) ∧
    (∀ b, PyUnicode_AsUTF8String env (.unicode cls v) = .ok b →
      env.malloc_ok (5 + name.length + (nulIndex (utf8 v) + 1)) = true →
      env.newString_ok (5 + name.length + (nulIndex (utf8 v) + 1)) = true →
      ∃ out, _cbson_element_to_bson env [.str name, .unicode cls v]
        = .returned (some (.str out)) none) ∧
    (∀ b, PyUnicode_AsUTF8String env (.unicode cls v) = .ok b →
      (env.malloc_ok (5 + name.length + (nulIndex (utf8 v) + 1)) = false
        ∨ env.newString_ok (5 + name.length + (nulIndex (utf8 v) + 1)) = false) →
      _cbson_element_to_bson env [.str name, .unicode cls v]
        = .returned none (some ⟨.MemoryError, ""⟩)) ∧
    ((∃ res err, _cbson_element_to_bson env [.str name, .unicode cls v]
        = .returned (some res) err)
      ↔ ((∃ b, PyUnicode_AsUTF8String env (.unicode cls v) = .ok b)
        ∧ env.malloc_ok (5 + name.length + (nulIndex (utf8 v) + 1)) = true
        ∧ env.newString_ok (5 + name.length + (nulIndex (utf8 v) + 1)) = true)) := by
  have hname : (name.length : Int) ≤ INT_MAX := by omega
  have hok : ∀ b, PyUnicode_AsUTF8String env (.unicode cls v) = .ok b →
      _cbson_element_to_bson env [.str name, .unicode cls v]
        = encode_text env name (name.length : Int) (utf8 v) := by
    intro b hb
    obtain ⟨hconv, hsz, _⟩ := (asUTF8_ok_iff env cls v b).mp hb
    exact element_to_bson_unicode env name cls v hname hconv hsz
  refine ⟨fun e he => element_conversion_error env name cls v e hname he, ?_, ?_, ?_⟩
  · intro b hb hm hs
    rw [hok b hb, encode_text_fit_eq env name (utf8 v) hfit, if_pos hm, if_pos hs]
    exact ⟨_, rfl⟩
  · intro b hb hfail
    rw [hok b hb, encode_text_fit_eq env name (utf8 v) hfit]
    by_cases hm : env.malloc_ok (5 + name.length + (nulIndex (utf8 v) + 1)) = true
    · rw [if_pos hm]
      rcases hfail with hf | hf
      · rw [hf] at hm
        cases hm
      · rw [if_neg (by rw [hf]; decide)]
    · rw [if_neg hm]
  · constructor
    · rintro ⟨res, err, h⟩
      obtain ⟨_, hsz, h2⟩ := element_to_bson_some env name cls v res err h
      have hconv : env.utf8_failure v = none := by
        cases hc : env.utf8_failure v with
        | none => rfl
        | some e =>
          have he : PyUnicode_AsUTF8String env (.unicode cls v) = .error e := by
            simp only [PyUnicode_AsUTF8String, hc]
          rw [element_conversion_error env name cls v e hname he] at h
          cases h
      rw [encode_text_fit_eq env name (utf8 v) hfit] at h2
      by_cases hm : env.malloc_ok (5 + name.length + (nulIndex (utf8 v) + 1)) = true
      · by_cases hs : env.newString_ok (5 + name.length + (nulIndex (utf8 v) + 1)) = true
        · exact ⟨⟨utf8 v, (asUTF8_ok_iff env cls v _).mpr ⟨hconv, hsz, rfl⟩⟩, hm, hs⟩
        · rw [if_pos hm, if_neg hs] at h2
          cases h2
      · rw [if_neg hm] at h2
        cases h2
    · rintro ⟨⟨b, hb⟩, hm, hs⟩
      rw [hok b hb, encode_text_fit_eq env name (utf8 v) hfit, if_pos hm, if_pos hs]
      exact ⟨_, _, rfl⟩

/-- Witness for claim C12: the name x and the text a, b; the conversion and the
allocations succeed and the element is returned. -/
theorem C12_text_fails_iff_conversion_or_allocation_fails_witness :
    5 + (([120] : List Nat).length : Int) + ((nulIndex (utf8 ['a', 'b']) : Int) + 1) ≤ INT_MAX ∧
    ∃ res err, _cbson_element_to_bson Env.unlimited [.str [120], .unicode none ['a', 'b']]
      = .returned (some res) err :=
  ⟨by decide,
    (C12_text_fails_iff_conversion_or_allocation_fails Env.unlimited [120] none ['a', 'b']
      (by decide)).2.2.2.mpr
      ⟨⟨utf8 ['a', 'b'], (asUTF8_ok_iff _ _ _ _).mpr ⟨rfl, by decide, rfl⟩⟩, rfl, rfl⟩⟩

/-- Claim C12 fails as stated: for a name of 2^31 - 1 bytes and a text of
2^31 - 3 letters a the conversion to UTF-8 succeeds and every allocation
succeeds, yet the encoder does not succeed: return_value_length wraps to 2,
malloc(2) is too small and the copy of the name leaves the buffer. -/
theorem C12_succeeding_conversion_without_result :
    PyUnicode_AsUTF8String Env.unlimited (.unicode none (List.replicate 2147483645 'a'))
      = .ok (utf8 (List.replicate 2147483645 'a')) ∧
    (∀ n, Env.unlimited.malloc_ok n = true ∧ Env.unlimited.newString_ok n = true) ∧
    return_value_length_of ((List.replicate 2147483647 97 : List Nat).length : Int)
      (bytes_length_of (nulIndex (utf8 (List.replicate 2147483645 'a')))) = 2 ∧
    _cbson_element_to_bson Env.unlimited
        [.str (List.replicate 2147483647 97), .unicode none (List.replicate 2147483645 'a')]
      = .undefined := by
  have hu : utf8 (List.replicate 2147483645 'a') = List.replicate 2147483645 97 :=
    utf8_replicate_a _
  have hname : ((List.replicate 2147483647 97 : List Nat).length : Int) ≤ INT_MAX := by
    rw [List.length_replicate]
    decide
  have hsz : (utf8 (List.replicate 2147483645 'a')).length ≤ PY_SSIZE_T_MAX := by
    rw [hu, List.length_replicate]
    decide
  refine ⟨(asUTF8_ok_iff _ _ _ _).mpr ⟨rfl, hsz, rfl⟩, fun _ => ⟨rfl, rfl⟩, ?_, ?_⟩
  · rw [hu, nulIndex_replicate, List.length_replicate]
    decide
  · rw [element_to_bson_unicode Env.unlimited _ none _ hname rfl hsz]
    apply encode_text_overflow
    · rfl
    · rw [hu, nulIndex_replicate, List.length_replicate]
      decide

/-- Argument conversion by s# never raises the exception of the module. -/
theorem convert_s_hash_error (a : PyObject) (e : PyErr) (h : convert_s_hash a = .error e) :
    e.exc ≠ .CBSONError := by
  cases a with
  | str bytes =>
    rw [convert_s_hash] at h
    by_cases hl : (bytes.length : Int) ≤ INT_MAX
    · rw [if_pos hl] at h
      cases h
    · rw [if_neg hl] at h
      injection h with h
      rw [← h]
      decide
  | unicode cls chars =>
    rw [convert_s_hash] at h
    by_cases ha : (chars.all fun c => decide (c.toNat < 128)) = true
    · rw [if_pos ha] at h
      by_cases hl : (chars.length : Int) ≤ INT_MAX
      · rw [if_pos hl] at h
        cases h
      · rw [if_neg hl] at h
        injection h with h
        rw [← h]
        decide
    · rw [if_neg ha] at h
      injection h with h
      rw [← h]
      decide
  | int i =>
    have h2 : convert_s_hash (.int i)
        = .error ⟨.TypeError, "must be string or read-only buffer"⟩ := rfl
    rw [h2] at h
    injection h with h
    rw [← h]
    decide
  | other n =>
    have h2 : convert_s_hash (.other n)
        = .error ⟨.TypeError, "must be string or read-only buffer"⟩ := rfl
    rw [h2] at h
    injection h with h
    rw [← h]
    decide

/-- Parsing the arguments of _shuffle_oid never raises the exception of the module. -/
theorem parse_s_hash_error (args : List PyObject) (e : PyErr)
    (h : PyArg_ParseTuple_s_hash args = .error e) : e.exc ≠ .CBSONError := by
  match args, h with
  | [], h =>
    have h2 : PyArg_ParseTuple_s_hash []
        = .error ⟨.TypeError, "function takes exactly 1 argument"⟩ := rfl
    rw [h2] at h
    injection h with h
    rw [← h]
    decide
  | [a], h => exact convert_s_hash_error a e h
  | a :: b :: rest, h =>
    have h2 : PyArg_ParseTuple_s_hash (a :: b :: rest)
        = .error ⟨.TypeError, "function takes exactly 1 argument"⟩ := rfl
    rw [h2] at h
    injection h with h
    rw [← h]
    decide

/-- Parsing two arguments: the conversion of the first, with the second added. -/
theorem parse_s_hash_O_two (a value : PyObject) :
    PyArg_ParseTuple_s_hash_O [a, value]
      = match convert_s_hash a with
        | .ok (name, name_length) => .ok (name, name_length, value)
        | .error e => .error e := rfl

/-- Parsing the arguments of _element_to_bson never raises the exception of the
module. -/
theorem parse_s_hash_O_error (args : List PyObject) (e : PyErr)
    (h : PyArg_ParseTuple_s_hash_O args = .error e) : e.exc ≠ .CBSONError := by
  match args, h with
  | [], h =>
    have h2 : PyArg_ParseTuple_s_hash_O []
        = .error ⟨.TypeError, "function takes exactly 2 arguments"⟩ := rfl
    rw [h2] at h
    injection h with h
    rw [← h]
    decide
  | [a], h =>
    have h2 : PyArg_ParseTuple_s_hash_O [a]
        = .error ⟨.TypeError, "function takes exactly 2 arguments"⟩ := rfl
    rw [h2] at h
    injection h with h
    rw [← h]
    decide
  | [a, value], h =>
    rw [parse_s_hash_O_two] at h
    cases hc : convert_s_hash a with
    | error e0 =>
      rw [hc] at h
      injection h with h
      rw [← h]
      exact convert_s_hash_error a e0 hc
    | ok p =>
      rw [hc] at h
      cases h
  | a :: b :: c :: rest, h =>
    have h2 : PyArg_ParseTuple_s_hash_O (a :: b :: c :: rest)
        = .error ⟨.TypeError, "function takes exactly 2 arguments"⟩ := rfl
    rw [h2] at h
    injection h with h
    rw [← h]
    decide

/-- Successful parsing of the arguments of _element_to_bson: there are exactly
two arguments and the second is the value. -/
theorem parse_s_hash_O_ok (args : List PyObject) (name : List Nat) (name_length : Int)
    (value : PyObject) (h : PyArg_ParseTuple_s_hash_O args = .ok (name, name_length, value)) :
    ∃ a, args = [a, value] := by
  match args, h with
  | [], h => cases h
  | [a], h => cases h
  | [a, value2], h =>
    rw [parse_s_hash_O_two] at h
    cases hc : convert_s_hash a with
    | error e0 =>
      rw [hc] at h
      cases h
    | ok p =>
      rw [hc] at h
      obtain ⟨n, l⟩ := p
      injection h with h
      injection h with h1 h2
      injection h2 with h2 h3
      exact ⟨a, by rw [h3]⟩
  | a :: b :: c :: rest, h => cases h

/-- Every error left by Py_BuildValue is its own SystemError or MemoryError, or
the error that was pending before the call. -/
theorem buildValue_err (env : Env) (err : Option PyErr) (p : Buffer) (n : Int)
    (res : Option PyObject) (e : PyErr)
    (h : Py_BuildValue_s_hash env err p n = .returned res (some e)) :
    e.exc = .SystemError ∨ e.exc = .MemoryError ∨ err = some e := by
  unfold Py_BuildValue_s_hash at h
  by_cases hn : n < 0
  · rw [if_pos hn] at h
    injection h with h1 h2
    injection h2 with h2
    rw [← h2]
    exact Or.inl rfl
  · rw [if_neg hn] at h
    by_cases hs : env.newString_ok n.toNat = true
    · rw [if_pos hs] at h
      by_cases hl : n.toNat ≤ p.length
      · rw [if_pos hl] at h
        cases hr : readCells (List.take n.toNat p) with
        | none =>
          rw [hr] at h
          cases h
        | some bytes =>
          rw [hr] at h
          injection h with h1 h2
          exact Or.inr (Or.inr h2)
      · rw [if_neg hl] at h
        cases h
    · rw [if_neg hs] at h
      injection h with h1 h2
      injection h2 with h2
      rw [← h2]
      exact Or.inr (Or.inl rfl)

/-- The only error raised inside shuffle_oid is the MemoryError of PyErr_NoMemory. -/
theorem shuffle_oid_raised (env : Env) (oid : List Nat) (e : PyErr)
    (h : shuffle_oid env oid = .raised e) : e = PyErr_NoMemory := by
  unfold shuffle_oid at h
  cases hm : malloc env 12 with
  | none =>
    rw [hm] at h
    injection h with h
    exact h.symm
  | some shuffled =>
    rw [hm] at h
    dsimp only at h
    cases h1 : shuffle_loop1 oid shuffled with
    | none =>
      rw [h1] at h
      cases h
    | some s1 =>
      rw [h1] at h
      dsimp only at h
      cases h2 : shuffle_loop2 oid s1 with
      | none =>
        rw [h2] at h
        cases h
      | some s2 =>
        rw [h2] at h
        cases h

/-- Every error left by the text branch is a MemoryError or a SystemError. -/
theorem encode_text_err (env : Env) (name enc : List Nat) (name_length : Int)
    (res : Option PyObject) (e : PyErr)
    (h : encode_text env name name_length enc = .returned res (some e)) :
    e.exc = .MemoryError ∨ e.exc = .SystemError := by
  rw [encode_text_eq] at h
  generalize bytes_length_of (nulIndex enc) = bl at h
  generalize return_value_length_of name_length bl = rvl at h
  generalize toSizeT rvl = N at h
  cases hmal : malloc env N with
  | none =>
    rw [hmal] at h
    injection h with h1 h2
    injection h2 with h2
    rw [← h2]
    exact Or.inl rfl
  | some to_return =>
    rw [hmal] at h
    dsimp only at h
    cases hwr : write_element to_return (name ++ [0]) name_length (enc ++ [0]) bl with
    | none =>
      rw [hwr] at h
      cases h
    | some buf =>
      rw [hwr] at h
      dsimp only at h
      rcases buildValue_err env none buf rvl res e h with h3 | h3 | h3
      · exact Or.inr h3
      · exact Or.inl h3
      · cases h3

/-- Every error left by _shuffle_oid is raised by another class than the
exception of the module. -/
theorem shuffle_oid_err (env : Env) (args : List PyObject) (res : Option PyObject) (e : PyErr)
    (h : _cbson_shuffle_oid env args = .returned res (some e)) : e.exc ≠ .CBSONError := by
  unfold _cbson_shuffle_oid at h
  cases hp : PyArg_ParseTuple_s_hash args with
  | error e0 =>
    rw [hp] at h
    injection h with h1 h2
    injection h2 with h2
    rw [← h2]
    exact parse_s_hash_error args e0 hp
  | ok p =>
    obtain ⟨data, length⟩ := p
    rw [hp] at h
    dsimp only at h
    cases hs : shuffle_oid env (PyString_AsString data) with
    | raised e0 =>
      rw [hs] at h
      injection h with h1 h2
      injection h2 with h2
      rw [← h2, shuffle_oid_raised env _ e0 hs]
      decide
    | undefined =>
      rw [hs] at h
      cases h
    | value shuffled =>
      rw [hs] at h
      dsimp only at h
      rcases buildValue_err env _ shuffled 12 res e h with h3 | h3 | h3
      · rw [h3]
        decide
      · rw [h3]
        decide
      · by_cases hl : length ≠ 12
        · rw [if_pos hl] at h3
          injection h3 with h3
          rw [← h3]
          decide
        · rw [if_neg hl] at h3
          cases h3

/-- Claim C13: in an environment whose UTF-8 conversion never raises the
exception of the module, (1) no path of _shuffle_oid leaves an error of class
_cbson.error, in particular not the ValueError for a wrong length nor the
MemoryError of a failed allocation, and (2) whenever _element_to_bson leaves
an error of class _cbson.error, it returned NULL for a value that is not a
unicode object, with the message for the unsupported type; so conversion and
allocation failures are reported with other classes. -/
theorem C13_unsupported_error_distinct (env : Env) (args : List PyObject)
    (hsane : ∀ v e, env.utf8_failure v = some e → e.exc ≠ .CBSONError) :
    (∀ res e, _cbson_shuffle_oid env args = .returned res (some e) → e.exc ≠ .CBSONError) ∧
    (∀ res e, _cbson_element_to_bson env args = .returned res (some e) →
      e.exc = .CBSONError →
      res = none ∧ e = ⟨.CBSONError, "no c encoder for this type yet"⟩ ∧
      ∃ a value, args = [a, value] ∧ PyUnicode_Check value = false) ∧
    PyErr_NoMemory.exc = .MemoryError ∧
    PyExc.MemoryError ≠ PyExc.CBSONError ∧
    PyExc.ValueError ≠ PyExc.CBSONError ∧
    PyExc.UnicodeEncodeError ≠ PyExc.CBSONError := by
  refine ⟨fun res e h => shuffle_oid_err env args res e h, ?_, rfl, by decide, by decide,
    by decide⟩
  intro res e h hexc
  unfold _cbson_element_to_bson at h
  cases hp : PyArg_ParseTuple_s_hash_O args with
  | error e0 =>
    rw [hp] at h
    injection h with h1 h2
    injection h2 with h2
    rw [← h2] at hexc
    exact absurd hexc (parse_s_hash_O_error args e0 hp)
  | ok p =>
    obtain ⟨name, name_length, value⟩ := p
    obtain ⟨a, hargs⟩ := parse_s_hash_O_ok args name name_length value hp
    rw [hp] at h
    dsimp only at h
    cases hchk : PyUnicode_Check value with
    | false =>
      rw [hchk] at h
      simp only [Bool.false_eq_true, if_false] at h
      injection h with h1 h2
      injection h2 with h2
      exact ⟨h1.symm, h2.symm, a, value, hargs, hchk⟩
    | true =>
      rw [hchk] at h
      simp only [if_true] at h
      cases hconv : PyUnicode_AsUTF8String env value with
      | error e0 =>
        rw [hconv] at h
        injection h with h1 h2
        injection h2 with h2
        rw [← h2] at hexc
        cases value with
        | unicode cls chars =>
          cases hf : env.utf8_failure chars with
          | some e1 =>
            simp only [PyUnicode_AsUTF8String, hf] at hconv
            injection hconv with hconv
            rw [← hconv] at hexc
            exact absurd hexc (hsane chars e1 hf)
          | none =>
            by_cases hsz : (utf8 chars).length ≤ PY_SSIZE_T_MAX
            · simp only [PyUnicode_AsUTF8String, hf, if_pos hsz] at hconv
              cases hconv
            · simp only [PyUnicode_AsUTF8String, hf, if_neg hsz] at hconv
              injection hconv with hconv
              rw [← hconv] at hexc
              cases hexc
        | str b => cases hchk
        | int i => cases hchk
        | other n => cases hchk
      | ok encoded =>
        rw [hconv] at h
        dsimp only at h
        rcases encode_text_err env name encoded name_length res e h with h3 | h3
        · rw [h3] at hexc
          cases hexc
        · rw [h3] at hexc
          cases hexc

/-- Witness for claim C13: an environment in which nothing fails, and the call
with the name x and the integer 42. -/
theorem C13_unsupported_error_distinct_witness :
    (∀ v e, Env.unlimited.utf8_failure v = some e → e.exc ≠ .CBSONError) ∧
    (∀ res e, _cbson_element_to_bson Env.unlimited [.str [120], .int 42]
        = .returned res (some e) →
      e.exc = .CBSONError →
      res = none ∧ e = ⟨.CBSONError, "no c encoder for this type yet"⟩ ∧
      ∃ a value, [PyObject.str [120], PyObject.int 42] = [a, value]
        ∧ PyUnicode_Check value = false) :=
  ⟨fun _ _ h => (by cases h),
    (C13_unsupported_error_distinct Env.unlimited [.str [120], .int 42]
      (fun _ _ h => (by cases h))).2.1⟩

/-! ## The element encoder: the terminator scan -/

/-- The byte at the index found by the scan is the zero byte, when there is one. -/
theorem getElem?_nulIndex (u : List Nat) (h : nulIndex u < u.length) :
    u[nulIndex u]? = some 0 := by
  induction u with
  | nil => simp at h
  | cons b rest ih =>
    by_cases hb : b = 0
    · simp [nulIndex, hb]
    · simp only [nulIndex, hb, if_false, List.length_cons, Nat.add_lt_add_iff_right] at h ⊢
      rw [List.getElem?_cons_succ]
      exact ih h

/-- The bytes of an element after its four length bytes. -/
theorem drop_frame (name l tail : List Nat) (hl : l.length = 4) :
    ([2] ++ name ++ l ++ tail).drop (1 + name.length + 4) = tail := by
  have h1 : ([2] ++ name ++ l).length = 1 + name.length + 4 := by
    simp [hl]
    omega
  rw [← h1, List.drop_left]

/-- Every element returned for a unicode value whose strlen + 1 fits an int:
tag, name, the four bytes of strlen + 1, the encoded bytes before the first
zero byte, and one zero byte; no error is pending. -/
theorem element_returned_fit (env : Env) (name : List Nat) (cls : Option String)
    (v : List Char) (out : List Nat) (err : Option PyErr)
    (hfit : (nulIndex (utf8 v) : Int) + 1 ≤ INT_MAX)
    (h : _cbson_element_to_bson env [.str name, .unicode cls v]
      = .returned (some (.str out)) err) :
    out = [2] ++ name ++ int32_bytes ((nulIndex (utf8 v) + 1 : Nat) : Int)
      ++ ((utf8 v).take (nulIndex (utf8 v)) ++ [0]) ∧ err = none := by
  obtain ⟨n, hn, _, _, herr, hres⟩ := element_returned env name cls v (.str out) err h
  simp only [PyObject.str.injEq] at hres
  have e : (n : Int) = (nulIndex (utf8 v) : Int) + 1 := hn.symm.trans (bytes_length_exact _ hfit)
  have e2 : n = nulIndex (utf8 v) + 1 := by exact_mod_cast e
  rw [e2, take_succ_nulIndex] at hres
  exact ⟨hres, herr⟩

/-- A prefix of a run of equal bytes followed by other bytes. -/
theorem take_replicate_append (k n a : Nat) (t : List Nat) (h : k ≤ n) :
    (List.replicate n a ++ t).take k = List.replicate k a := by
  rw [List.take_append_of_le_length (by rw [List.length_replicate]; exact h),
    List.take_replicate, Nat.min_eq_left h]

/-- The element returned, in an environment where nothing fails, for the name
x and a text of n letters a when the int bytes_length has the value k, at most
n: the length bytes hold k and only k letters follow, without a zero byte. -/
theorem element_of_letters (n k : Nat) (hk : bytes_length_of n = (k : Int)) (hkn : k ≤ n)
    (hsmall : (k : Int) ≤ 2147483641) (hn : n ≤ PY_SSIZE_T_MAX) :
    _cbson_element_to_bson Env.unlimited [.str [120], .unicode none (List.replicate n 'a')]
      = .returned (some (.str ([2] ++ [120] ++ int32_bytes (k : Int) ++ List.replicate k 97)))
          none := by
  have hu : utf8 (List.replicate n 'a') = List.replicate n 97 := utf8_replicate_a _
  have hname : (([120] : List Nat).length : Int) ≤ INT_MAX := by decide
  have hsz : (utf8 (List.replicate n 'a')).length ≤ PY_SSIZE_T_MAX := by
    rw [hu, List.length_replicate]
    exact hn
  have hbl : bytes_length_of (nulIndex (utf8 (List.replicate n 'a'))) = (k : Int) := by
    rw [hu, nulIndex_replicate]
    exact hk
  have hsrc : (k : Int) ≤ ((utf8 (List.replicate n 'a')).length : Int) + 1 := by
    rw [hu, List.length_replicate]
    omega
  have hsum : 5 + (([120] : List Nat).length : Int) + (k : Int) ≤ INT_MAX := by
    unfold INT_MAX
    simp only [List.length_singleton]
    omega
  rw [element_to_bson_unicode Env.unlimited [120] none _ hname rfl hsz,
    encode_text_returns Env.unlimited [120] _ (k : Int) hbl (Int.natCast_nonneg _) hsrc hsum
      rfl rfl,
    Int.toNat_ofNat, hu, take_replicate_append k n 97 [0] hkn]

/-- The UTF-8 encoding determines the text. -/
theorem utf8_injective (v1 v2 : List Char) (h : utf8 v1 = utf8 v2) : v1 = v2 := by
  have h1 := utf8Decode_utf8 v1
  rw [h, utf8Decode_utf8 v2] at h1
  injection h1 with h1
  exact h1.symm

/-- Claim C14 as amended: for every text value v with UTF-8 bytes u and p the
index of the first zero byte of u (the length of u if it has none), strlen on
the encoded buffer returns p; whenever p + 1 fits an int and the encoder
returns an element, the stored payload_len is p + 1 and the payload is the
first p bytes of u followed by one zero byte; p + 1 is at most length(u) + 1,
with equality exactly when u has no zero byte, and strictly smaller when u has
an embedded zero byte. -/
theorem C14_terminator_scan (env : Env) (name : List Nat) (cls : Option String)
    (v : List Char) (out : List Nat) (err : Option PyErr)
    (hfit : (nulIndex (utf8 v) : Int) + 1 ≤ INT_MAX)
    (h : _cbson_element_to_bson env [.str name, .unicode cls v]
      = .returned (some (.str out)) err) :
    strlen (PyString_AsString (utf8 v)) = some (nulIndex (utf8 v)) ∧
    0 ∉ (utf8 v).take (nulIndex (utf8 v)) ∧
    (nulIndex (utf8 v) < (utf8 v).length → (utf8 v)[nulIndex (utf8 v)]? = some 0) ∧
    bytes_length_of (nulIndex (utf8 v)) = (nulIndex (utf8 v) : Int) + 1 ∧
    read_le32 out (1 + name.length) = nulIndex (utf8 v) + 1 ∧
    out.drop (1 + name.length + 4) = (utf8 v).take (nulIndex (utf8 v)) ++ [0] ∧
    nulIndex (utf8 v) + 1 ≤ (utf8 v).length + 1 ∧
    (nulIndex (utf8 v) + 1 = (utf8 v).length + 1 ↔ 0 ∉ utf8 v) ∧
    (0 ∈ utf8 v → nulIndex (utf8 v) + 1 < (utf8 v).length + 1) := by
  obtain ⟨hout, _⟩ := element_returned_fit env name cls v out err hfit h
  have hle := nulIndex_le_length (utf8 v)
  refine ⟨strlen_append_zero _, take_nulIndex_no_zero _, getElem?_nulIndex _,
    bytes_length_exact _ hfit, ?_, ?_, by omega, ?_, ?_⟩
  · rw [hout]
    exact read_le32_frame name _ _ (by push_cast; exact hfit)
  · rw [hout]
    exact drop_frame name _ _ (length_int32_bytes _)
  · constructor
    · intro he h0
      have := nulIndex_lt_of_mem _ h0
      omega
    · intro h0
      rw [nulIndex_eq_length _ h0]
  · intro h0
    have := nulIndex_lt_of_mem _ h0
    omega

/-- Witness for claim C14: the name x and the text a, U+0000, b, whose scan
stops at index 1. -/
theorem C14_terminator_scan_witness :
    (nulIndex (utf8 ['a', Char.ofNat 0, 'b']) : Int) + 1 ≤ INT_MAX ∧
    _cbson_element_to_bson Env.unlimited [.str [120], .unicode none ['a', Char.ofNat 0, 'b']]
      = .returned (some (.str [2, 120, 2, 0, 0, 0, 97, 0])) none ∧
    read_le32 [2, 120, 2, 0, 0, 0, 97, 0] (1 + [120].length)
      = nulIndex (utf8 ['a', Char.ofNat 0, 'b']) + 1 ∧
    ([2, 120, 2, 0, 0, 0, 97, 0] : List Nat).drop (1 + [120].length + 4)
      = (utf8 ['a', Char.ofNat 0, 'b']).take (nulIndex (utf8 ['a', Char.ofNat 0, 'b'])) ++ [0] :=
  ⟨by decide, by decide,
    (C14_terminator_scan Env.unlimited [120] none ['a', Char.ofNat 0, 'b']
      [2, 120, 2, 0, 0, 0, 97, 0] none (by decide) (by decide)).2.2.2.2.1,
    (C14_terminator_scan Env.unlimited [120] none ['a', Char.ofNat 0, 'b']
      [2, 120, 2, 0, 0, 0, 97, 0] none (by decide) (by decide)).2.2.2.2.2.1⟩

/-- Claim C14 fails as stated: for the name x and a text of 2^32 letters a the
scan finds p = 2^32, but p + 1 wraps to the int 1: the encoder returns
02 78 01 00 00 00 61, where payload_len is 1, not p + 1, and the payload is the
single byte 61, not the bytes before index p followed by a zero byte. -/
theorem C14_scan_length_wraps :
    nulIndex (utf8 (List.replicate 4294967296 'a')) = 4294967296 ∧
    _cbson_element_to_bson Env.unlimited
        [.str [120], .unicode none (List.replicate 4294967296 'a')]
      = .returned (some (.str [2, 120, 1, 0, 0, 0, 97])) none ∧
    read_le32 [2, 120, 1, 0, 0, 0, 97] (1 + [120].length) = 1 ∧
    ([2, 120, 1, 0, 0, 0, 97] : List Nat).drop (1 + [120].length + 4) = [97] := by
  refine ⟨?_, ?_, by decide, by decide⟩
  · rw [utf8_replicate_a, nulIndex_replicate]
  · exact element_of_letters 4294967296 1 (by decide) (by decide) (by decide) (by decide)

/-- Claim C15 as amended: whenever strlen + 1 fits an int and the encoder
returns an element, the payload region (the bytes after the four length bytes)
contains exactly one zero byte, and it is the last byte of the region and of
the output. -/
theorem C15_single_terminator (env : Env) (name : List Nat) (cls : Option String)
    (v : List Char) (out : List Nat) (err : Option PyErr)
    (hfit : (nulIndex (utf8 v) : Int) + 1 ≤ INT_MAX)
    (h : _cbson_element_to_bson env [.str name, .unicode cls v]
      = .returned (some (.str out)) err) :
    (out.drop (1 + name.length + 4)).count 0 = 1 ∧
    (out.drop (1 + name.length + 4)).getLast? = some 0 ∧
    out.getLast? = some 0 := by
  obtain ⟨hout, _⟩ := element_returned_fit env name cls v out err hfit h
  have hdrop : out.drop (1 + name.length + 4) = (utf8 v).take (nulIndex (utf8 v)) ++ [0] := by
    rw [hout]
    exact drop_frame name _ _ (length_int32_bytes _)
  have hcount : ((utf8 v).take (nulIndex (utf8 v))).count 0 = 0 :=
    List.count_eq_zero.mpr (take_nulIndex_no_zero _)
  refine ⟨?_, ?_, ?_⟩
  · rw [hdrop, List.count_append, hcount]
    rfl
  · rw [hdrop, List.getLast?_append]
    rfl
  · rw [hout, ← List.append_assoc, List.getLast?_append]
    rfl

/-- Witness for claim C15: the name x and the text a, U+0000, b. -/
theorem C15_single_terminator_witness :
    (nulIndex (utf8 ['a', Char.ofNat 0, 'b']) : Int) + 1 ≤ INT_MAX ∧
    _cbson_element_to_bson Env.unlimited [.str [120], .unicode none ['a', Char.ofNat 0, 'b']]
      = .returned (some (.str [2, 120, 2, 0, 0, 0, 97, 0])) none ∧
    (([2, 120, 2, 0, 0, 0, 97, 0] : List Nat).drop (1 + [120].length + 4)).count 0 = 1 ∧
    (([2, 120, 2, 0, 0, 0, 97, 0] : List Nat).drop (1 + [120].length + 4)).getLast? = some 0 ∧
    ([2, 120, 2, 0, 0, 0, 97, 0] : List Nat).getLast? = some 0 :=
  ⟨by decide, by decide,
    C15_single_terminator Env.unlimited [120] none ['a', Char.ofNat 0, 'b']
      [2, 120, 2, 0, 0, 0, 97, 0] none (by decide) (by decide)⟩

/-- Claim C15 fails as stated: for the name x and a text of 2^32 + 1 letters a,
strlen + 1 wraps to the int 2 and the encoder succeeds with
02 78 02 00 00 00 61 61: the payload region holds no zero byte and the last
byte of the output is 61. -/
theorem C15_no_terminator_on_wrap :
    _cbson_element_to_bson Env.unlimited
        [.str [120], .unicode none (List.replicate 4294967297 'a')]
      = .returned (some (.str [2, 120, 2, 0, 0, 0, 97, 97])) none ∧
    (([2, 120, 2, 0, 0, 0, 97, 97] : List Nat).drop (1 + [120].length + 4)).count 0 = 0 ∧
    ([2, 120, 2, 0, 0, 0, 97, 97] : List Nat).getLast? = some 97 := by
  refine ⟨?_, by decide, by decide⟩
  exact element_of_letters 4294967297 2 (by decide) (by decide) (by decide) (by decide)

/-- Claim C16 as amended: for a fixed name and two text values whose
strlen + 1 fits an int and for which the encoder returns an element, the two
elements are equal if and only if the UTF-8 encodings agree up to the first
zero byte of each; hence two such texts without a zero byte in their UTF-8
encoding and with equal elements are equal; and there are distinct texts with
identical elements. -/
theorem C16_same_bytes_iff_agree_before_nul (env : Env) (name : List Nat)
    (cls1 cls2 : Option String) (v1 v2 : List Char) (out1 out2 : List Nat)
    (err1 err2 : Option PyErr)
    (hfit1 : (nulIndex (utf8 v1) : Int) + 1 ≤ INT_MAX)
    (hfit2 : (nulIndex (utf8 v2) : Int) + 1 ≤ INT_MAX)
    (h1 : _cbson_element_to_bson env [.str name, .unicode cls1 v1]
      = .returned (some (.str out1)) err1)
    (h2 : _cbson_element_to_bson env [.str name, .unicode cls2 v2]
      = .returned (some (.str out2)) err2) :
    (out1 = out2
      ↔ (utf8 v1).take (nulIndex (utf8 v1)) = (utf8 v2).take (nulIndex (utf8 v2))) ∧
    (0 ∉ utf8 v1 → 0 ∉ utf8 v2 → out1 = out2 → v1 = v2) ∧
    (∃ w1 w2 : List Char, w1 ≠ w2 ∧
      _cbson_element_to_bson Env.unlimited [.str [120], .unicode none w1]
        = .returned (some (.str [2, 120, 2, 0, 0, 0, 97, 0])) none ∧
      _cbson_element_to_bson Env.unlimited [.str [120], .unicode none w2]
        = .returned (some (.str [2, 120, 2, 0, 0, 0, 97, 0])) none) := by
  obtain ⟨ho1, _⟩ := element_returned_fit env name cls1 v1 out1 err1 hfit1 h1
  obtain ⟨ho2, _⟩ := element_returned_fit env name cls2 v2 out2 err2 hfit2 h2
  have hl1 := nulIndex_le_length (utf8 v1)
  have hl2 := nulIndex_le_length (utf8 v2)
  have hiff : out1 = out2
      ↔ (utf8 v1).take (nulIndex (utf8 v1)) = (utf8 v2).take (nulIndex (utf8 v2)) := by
    constructor
    · intro he
      have hd1 := drop_frame name (int32_bytes ((nulIndex (utf8 v1) + 1 : Nat) : Int))
        ((utf8 v1).take (nulIndex (utf8 v1)) ++ [0]) (length_int32_bytes _)
      have hd2 := drop_frame name (int32_bytes ((nulIndex (utf8 v2) + 1 : Nat) : Int))
        ((utf8 v2).take (nulIndex (utf8 v2)) ++ [0]) (length_int32_bytes _)
      rw [← ho1, he, ho2, hd2] at hd1
      exact List.append_cancel_right hd1.symm
    · intro hp
      have hlen : nulIndex (utf8 v1) = nulIndex (utf8 v2) := by
        have := congrArg List.length hp
        rw [List.length_take, List.length_take, Nat.min_eq_left hl1, Nat.min_eq_left hl2] at this
        exact this
      rw [ho1, ho2, hp, hlen]
  refine ⟨hiff, ?_, ['a', Char.ofNat 0, 'b'], ['a', Char.ofNat 0, 'c'], by decide, by decide,
    by decide⟩
  intro hz1 hz2 he
  have hp := hiff.mp he
  rw [nulIndex_eq_length _ hz1, nulIndex_eq_length _ hz2, List.take_length,
    List.take_length] at hp
  exact utf8_injective v1 v2 hp

/-- Witness for claim C16: the name x with the texts a, U+0000, b and
a, U+0000, c, which get the same element and agree before the zero byte. -/
theorem C16_same_bytes_iff_agree_before_nul_witness :
    (nulIndex (utf8 ['a', Char.ofNat 0, 'b']) : Int) + 1 ≤ INT_MAX ∧
    (nulIndex (utf8 ['a', Char.ofNat 0, 'c']) : Int) + 1 ≤ INT_MAX ∧
    _cbson_element_to_bson Env.unlimited [.str [120], .unicode none ['a', Char.ofNat 0, 'b']]
      = .returned (some (.str [2, 120, 2, 0, 0, 0, 97, 0])) none ∧
    _cbson_element_to_bson Env.unlimited [.str [120], .unicode none ['a', Char.ofNat 0, 'c']]
      = .returned (some (.str [2, 120, 2, 0, 0, 0, 97, 0])) none ∧
    (([2, 120, 2, 0, 0, 0, 97, 0] : List Nat) = [2, 120, 2, 0, 0, 0, 97, 0]
      ↔ (utf8 ['a', Char.ofNat 0, 'b']).take (nulIndex (utf8 ['a', Char.ofNat 0, 'b']))
        = (utf8 ['a', Char.ofNat 0, 'c']).take (nulIndex (utf8 ['a', Char.ofNat 0, 'c']))) :=
  ⟨by decide, by decide, by decide, by decide,
    (C16_same_bytes_iff_agree_before_nul Env.unlimited [120] none none ['a', Char.ofNat 0, 'b']
      ['a', Char.ofNat 0, 'c'] [2, 120, 2, 0, 0, 0, 97, 0] [2, 120, 2, 0, 0, 0, 97, 0]
      none none (by decide) (by decide) (by decide) (by decide)).1⟩

/-- Claim C16 fails as stated: for the name x, the text of 2^32 - 1 letters a
and the text of 2^33 - 1 letters a have UTF-8 encodings without a zero byte
that differ, yet strlen + 1 wraps to the int 0 for both and both are encoded
to 02 78 00 00 00 00: the encoder is not injective on texts without a zero
byte. -/
theorem C16_distinct_texts_same_bytes_on_wrap :
    _cbson_element_to_bson Env.unlimited
        [.str [120], .unicode none (List.replicate 4294967295 'a')]
      = .returned (some (.str [2, 120, 0, 0, 0, 0])) none ∧
    _cbson_element_to_bson Env.unlimited
        [.str [120], .unicode none (List.replicate 8589934591 'a')]
      = .returned (some (.str [2, 120, 0, 0, 0, 0])) none ∧
    0 ∉ utf8 (List.replicate 4294967295 'a') ∧
    0 ∉ utf8 (List.replicate 8589934591 'a') ∧
    (utf8 (List.replicate 4294967295 'a')).take (nulIndex (utf8 (List.replicate 4294967295 'a')))
      ≠ (utf8 (List.replicate 8589934591 'a')).take
          (nulIndex (utf8 (List.replicate 8589934591 'a'))) ∧
    List.replicate 4294967295 'a' ≠ List.replicate 8589934591 'a' := by
  have hz : ∀ n, 0 ∉ utf8 (List.replicate n 'a') := by
    intro n h0
    rw [utf8_replicate_a] at h0
    have := List.eq_of_mem_replicate h0
    omega
  refine ⟨element_of_letters 4294967295 0 (by decide) (by decide) (by decide) (by decide),
    element_of_letters 8589934591 0 (by decide) (by decide) (by decide) (by decide),
    hz _, hz _, ?_, ?_⟩
  · intro he
    have := congrArg List.length he
    rw [utf8_replicate_a, utf8_replicate_a, nulIndex_replicate, nulIndex_replicate,
      List.take_replicate, List.take_replicate, List.length_replicate,
      List.length_replicate] at this
    revert this
    decide
  · intro he
    have := congrArg List.length he
    rw [List.length_replicate, List.length_replicate] at this
    revert this
    decide

end CBson
